import Mathlib

/-!
# goradio: negotiation of stream parameters, the audio stream and the streaming loop

A shallow embedding of `audio/audio.go`, `audio/frame.go`, `rtlfm/frame.go`, the
frequencies of `rtlfm/rtlfm.go` and the set-up and loop of `play.go`.

* Go `int` and `time.Duration` are 64-bit signed integers: they are `Int` here, with
  `wrapInt64` applied where the source multiplies.
* Go `float64` values are finite binary fractions `m * 2 ^ e`; every arithmetic
  operation rounds its exact result to 53 significant bits, nearest, ties to even.
  The exponent range of the format is not bounded (no infinity, no subnormal numbers).
* The PortAudio host is a `Driver` value: it holds what the host answers and a log of
  the calls made to it.
-/

set_option maxRecDepth 8000

namespace GoRadio

/-! ## Machine integers and durations -/

/-- Wraparound in two-complement arithmetic of a Go `int` (64 bits). -/
def wrapInt64 (x : Int) : Int := (x + 2 ^ 63) % 2 ^ 64 - 2 ^ 63

/-- Smallest Go `int`. -/
def minInt64 : Int := -(2 ^ 63)

/-- Largest Go `int`. -/
def maxInt64 : Int := 2 ^ 63 - 1

/-- The type `time.Duration`: a count of nanoseconds. -/
abbrev Duration := Int

/-- The constant `time.Millisecond`. -/
def Millisecond : Duration := 1000000

/-- The constant `time.Second`. -/
def Second : Duration := 1000000000

/-! ## float64 -/

/-- A finite float64 value `m * 2 ^ e`. -/
structure F64 where
  m : Int
  e : Int
deriving DecidableEq, Repr

/-- Worker of `bitLen`: halve until zero, at most `fuel` times. -/
def bitLenAux : Nat → Nat → Nat
  | 0, _ => 0
  | fuel + 1, n => if n = 0 then 0 else bitLenAux fuel (n / 2) + 1

/-- Number of binary digits of `n`; `0` has none. -/
def bitLen (n : Nat) : Nat := bitLenAux n n

/-- Round the non-negative quotient `N / D` to an integer, nearest, ties to even. -/
def roundHalfEven (N D : Nat) : Nat :=
  let q := N / D
  let r := N % D
  if 2 * r > D ∨ (2 * r = D ∧ q % 2 = 1) then q + 1 else q

/-- The quotient `(a / d) * 2 ^ s` as a pair numerator, denominator. -/
def scaled (a d : Nat) (s : Int) : Nat × Nat :=
  if 0 ≤ s then (a * 2 ^ s.toNat, d) else (a, d * 2 ^ (-s).toNat)

/-- The power of two by which `a / d` is scaled so that its integer part has exactly 53
binary digits. -/
def roundShift (a d : Nat) : Int :=
  let s0 : Int := 53 - ((bitLen a : Int) - (bitLen d : Int))
  let p0 := scaled a d s0
  if p0.1 / p0.2 < 2 ^ 53 then s0 else s0 - 1

/-- The float64 nearest to `(n / d) * 2 ^ e` (ties to even), for `d > 0`: the
magnitude is scaled by a power of two so that its integer part has exactly 53 binary
digits, and is then rounded to an integer. -/
def F64.round (n : Int) (d : Nat) (e : Int) : F64 :=
  let a := n.natAbs
  if a = 0 ∨ d = 0 then ⟨0, 0⟩ else
    let s := roundShift a d
    let p := scaled a d s
    ⟨n.sign * (roundHalfEven p.1 p.2 : Int), e - s⟩

/-- Conversion `float64(n)` of an integer. -/
def F64.ofInt (n : Int) : F64 := F64.round n 1 0

/-- Product of two float64 values. -/
def F64.mul (x y : F64) : F64 := F64.round (x.m * y.m) 1 (x.e + y.e)

/-- Sum of two float64 values. -/
def F64.add (x y : F64) : F64 :=
  let e := min x.e y.e
  F64.round (x.m * 2 ^ (x.e - e).toNat + y.m * 2 ^ (y.e - e).toNat) 1 e

/-- Quotient of two float64 values, for a nonzero divisor (the source only divides by
the constant `1e9`). -/
def F64.div (x y : F64) : F64 := F64.round (x.m * y.m.sign) y.m.natAbs (x.e - y.e)

/-- The test `x == 0` on a float64. -/
def F64.isZero (x : F64) : Bool := x.m == 0

/-- The integer part of a float64, fraction discarded (towards zero). -/
def F64.trunc (x : F64) : Int :=
  if 0 ≤ x.e then x.m * 2 ^ x.e.toNat else Int.tdiv x.m (2 ^ (-x.e).toNat)

/-- Conversion `int(x)`: the fraction is discarded; a value that does not fit a 64-bit
`int` is left to the implementation by the language, and is the smallest `int` on
amd64. -/
def F64.toInt (x : F64) : Int :=
  let t := x.trunc
  if minInt64 ≤ t ∧ t ≤ maxInt64 then t else minInt64

/-- The exact value of a float64. -/
def F64.toRat (x : F64) : ℚ := (x.m : ℚ) * (2 : ℚ) ^ x.e

/-- The method `Duration.Seconds` of package `time`:
`sec := d / Second; nsec := d % Second; return float64(sec) + float64(nsec)/1e9`. -/
def Duration.Seconds (d : Duration) : F64 :=
  let sec := Int.tdiv d Second
  let nsec := Int.tmod d Second
  F64.add (F64.ofInt sec) (F64.div (F64.ofInt nsec) (F64.ofInt 1000000000))

/-! ## Errors -/

/-- Go error values. A nil `error` is `none : Option Error`. -/
inductive Error where
  /-- The package variable `audio.ErrInputOverflowed`. -/
  | ErrInputOverflowed
  /-- The package variable `audio.ErrOutputOverflowed`. -/
  | ErrOutputOverflowed
  /-- The package variable `audio.ErrDeviceNotFound`. -/
  | ErrDeviceNotFound
  /-- The value `portaudio.InputOverflowed`. -/
  | InputOverflowed
  /-- The value `portaudio.OutputUnderflowed`. -/
  | OutputUnderflowed
  /-- Any other error value of the PortAudio host. -/
  | host (code : Int)
  /-- The value `io.EOF`. -/
  | EOF
  /-- The value `io.ErrUnexpectedEOF`. -/
  | ErrUnexpectedEOF
  /-- Any other error value of a byte source. -/
  | source (msg : String)
  /-- A value made by `errors.New(msg)` in a return statement. -/
  | new (msg : String)
  /-- A value made by `fmt.Errorf(msg + ": %w", inner)`. -/
  | wrap (msg : String) (inner : Error)
deriving DecidableEq, Repr

/-- The function `errors.Is`: the error itself or one it wraps is the target. -/
def Error.Is : Error → Error → Bool
  | .wrap msg inner, target => (Error.wrap msg inner == target) || Error.Is inner target
  | e, target => e == target

/-- The test `errors.Is(err, target)` on a possibly nil error. -/
def errorsIs (err : Option Error) (target : Error) : Bool :=
  match err with
  | none => false
  | some e => e.Is target

/-- What a Go call does: it returns a value or it panics. -/
inductive Outcome (α : Type) where
  | ret (v : α)
  | panic (msg : String)
deriving DecidableEq, Repr

/-! ## Slices -/

/-- The builtin `make([]T, n)`: `n` zero values; a negative length panics (`none`). -/
def make (T : Type) [Inhabited T] (n : Int) : Option (List T) :=
  if n < 0 then none else some (List.replicate n.toNat default)

/-- The builtin `copy(dst, src)`: the first `min (len dst) (len src)` elements of `dst`
are overwritten, the length of `dst` stays. -/
def goCopy {T : Type} (dst src : List T) : List T :=
  src.take dst.length ++ dst.drop src.length

/-! ## Devices and options (audio/device.go, audio/audio.go) -/

/-- The fields of `portaudio.DeviceInfo` that the repository reads. -/
structure DeviceInfo where
  Name : String
  MaxInputChannels : Int
  MaxOutputChannels : Int
  DefaultLowInputLatency : Duration
  DefaultLowOutputLatency : Duration
  DefaultHighInputLatency : Duration
  DefaultHighOutputLatency : Duration
  DefaultSampleRate : F64
deriving DecidableEq, Repr

/-- The type `audio.Device`. -/
structure Device where
  info : DeviceInfo
deriving DecidableEq, Repr

/-- The struct `streamOptions`; a nil `*Device` is `none`. -/
structure streamOptions where
  defaultInput : Bool := false
  defaultOutput : Bool := false
  inputDevice : Option Device := none
  outputDevice : Option Device := none
  inputChannels : Int := 0
  outputChannels : Int := 0
  inputLatency : Duration := 0
  outputLatency : Duration := 0
  sampleRate : Int := 0
  bufferSamples : Int := 0
deriving DecidableEq, Repr

/-- The values of the interface `audio.Option`, one constructor per `With...`
function of audio.go. -/
inductive StreamOption where
  | WithDefaultInputDevice
  | WithDefaultOutputDevice
  | WithInputDevice (device : Option Device)
  | WithOutputDevice (device : Option Device)
  | WithInputChannels (channels : Int)
  | WithOutputChannels (channels : Int)
  | WithInputLatency (latency : Duration)
  | WithOutputLatency (latency : Duration)
  | WithSampleRate (sampleRate : Int)
  | WithBufferSamples (samples : Int)
deriving DecidableEq, Repr

/-- The method `apply` of an option. -/
def StreamOption.apply (opts : streamOptions) : StreamOption → streamOptions
  | .WithDefaultInputDevice => { opts with defaultInput := true }
  | .WithDefaultOutputDevice => { opts with defaultOutput := true }
  | .WithInputDevice device => { opts with inputDevice := device }
  | .WithOutputDevice device => { opts with outputDevice := device }
  | .WithInputChannels channels => { opts with inputChannels := channels }
  | .WithOutputChannels channels => { opts with outputChannels := channels }
  | .WithInputLatency latency => { opts with inputLatency := latency }
  | .WithOutputLatency latency => { opts with outputLatency := latency }
  | .WithSampleRate sampleRate => { opts with sampleRate := sampleRate }
  | .WithBufferSamples samples => { opts with bufferSamples := samples }

/-- The loop `for _, opt := range opts { opt.apply(&options) }` on the zero value. -/
def applyOptions (opts : List StreamOption) : streamOptions :=
  opts.foldl StreamOption.apply {}

/-- The struct `portaudio.StreamDeviceParameters`. -/
structure StreamDeviceParameters where
  Device : Option DeviceInfo
  Channels : Int
  Latency : Duration
deriving DecidableEq, Repr

/-- The struct `portaudio.StreamParameters`. -/
structure StreamParameters where
  Input : StreamDeviceParameters
  Output : StreamDeviceParameters
  SampleRate : F64
  FramesPerBuffer : Int
deriving DecidableEq, Repr

/-! ## The PortAudio host -/

/-- The PortAudio host as the repository sees it: what it answers, and a log of the
calls that reached it. -/
structure Driver (T : Type) where
  /-- Answer of `portaudio.DefaultInputDevice()`. -/
  defaultInputDevice : Except Error DeviceInfo
  /-- Answer of `portaudio.DefaultOutputDevice()`. -/
  defaultOutputDevice : Except Error DeviceInfo
  /-- Answer of `portaudio.OpenStream(params, args...)`: nil or an error. -/
  openStream : StreamParameters → List (List T) → Option Error
  /-- Answers of the coming `stream.Read()` calls: the error returned and the samples
  the host has put in the input buffer. -/
  readScript : List (Option Error × List T)
  /-- Answers of the coming `stream.Write()` calls. -/
  writeScript : List (Option Error)
  /-- Log: the parameters of every `OpenStream` call. -/
  opened : List StreamParameters
  /-- Log: number of `stream.Read()` calls. -/
  reads : Nat
  /-- Log: the output buffer at every `stream.Write()` call. -/
  played : List (List T)

/-- The function `GetDefaultInputDevice` of audio/device.go. -/
def GetDefaultInputDevice {T : Type} (drv : Driver T) : Except Error Device :=
  match drv.defaultInputDevice with
  | .error err => .error (.wrap "failed to get default input device" err)
  | .ok info => .ok ⟨info⟩

/-- The function `GetDefaultOutputDevice` of audio/device.go. -/
def GetDefaultOutputDevice {T : Type} (drv : Driver T) : Except Error Device :=
  match drv.defaultOutputDevice with
  | .error err => .error (.wrap "failed to get default output device" err)
  | .ok info => .ok ⟨info⟩

/-- The method `Device.DefaultSampleRate`: `int(d.info.DefaultSampleRate)`. -/
def Device.DefaultSampleRate (d : Device) : Int := d.info.DefaultSampleRate.toInt

/-! ## Frames and the frame pool (audio/frame.go) -/

/-- The struct `Frame`. A `*Frame` is known by its address `addr`; the field `pool`
of the source points back to the pool whose `New` made the frame, and that pool is
handed to the operations on frames explicitly. -/
structure Frame (T : Type) where
  addr : Nat
  data : List T
deriving DecidableEq, Repr

/-- The struct `framePool`, a `sync.Pool` whose `New` is
`func() any { return newFrame[T](size, p) }`: `size` is the length captured by `New`,
`idle` the frames the pool holds, `allocated` the number of frames `New` has made. -/
structure framePool (T : Type) where
  size : Nat
  idle : List (Frame T)
  allocated : Nat
deriving DecidableEq, Repr

/-- The function `newFrame`: a frame at a new address, `data: make([]T, size)`. -/
def newFrame {T : Type} [Inhabited T] (size : Nat) (addr : Nat) : Frame T :=
  { addr := addr, data := List.replicate size default }

/-- The method `Frame.Data`. -/
def Frame.Data {T : Type} (f : Frame T) : List T := f.data

/-- The method `Frame.Release`: its body is empty, so the pool of the frame (like
everything else) is after the call what it was before. -/
def Frame.Release {T : Type} (_f : Frame T) (pool : framePool T) : framePool T := pool

/-- The function `newFramePool`. -/
def newFramePool {T : Type} (size : Nat) : framePool T :=
  { size := size, idle := [], allocated := 0 }

/-- The method `framePool.Get`, that is `sync.Pool.Get`: an arbitrary idle item is
taken out and returned (`pick` says which), and when the pool is empty, or chooses to
act as if it were (`pick` beyond the idle items), the result of `New` is returned. -/
def framePool.Get {T : Type} [Inhabited T] (p : framePool T) (pick : Nat) :
    Frame T × framePool T :=
  match p.idle.get? pick with
  | some frame => (frame, { p with idle := p.idle.eraseIdx pick })
  | none => (newFrame p.size p.allocated, { p with allocated := p.allocated + 1 })

/-- The method `framePool.Put`, that is `sync.Pool.Put`: the frame joins the idle
items. -/
def framePool.Put {T : Type} (p : framePool T) (frame : Frame T) : framePool T :=
  { p with idle := frame :: p.idle }

/-! ## Opening a stream (audio/audio.go) -/

/-- The struct `Stream`: the PortAudio stream it wraps (known by the parameters it was
opened with), the two scratch buffers and the frame pool (nil when there is no input
device). -/
structure Stream (T : Type) where
  stream : StreamParameters
  ibuf : List T
  obuf : List T
  framePool : Option (framePool T)
deriving DecidableEq, Repr

/-- The pattern `x = override; if x <= 0 || x > limit { x = limit }` that `Open`
applies to channel counts and latencies. -/
def clampOverride (override limit : Int) : Int :=
  if override ≤ 0 ∨ override > limit then limit else override

/-- The values `Open` has resolved when it reaches the allocation of the buffers. -/
structure StreamConfig where
  inputChannels : Int
  outputChannels : Int
  inputLatency : Duration
  outputLatency : Duration
  sampleRate : F64
  bufferSamples : Int
deriving DecidableEq, Repr

/-- Lines 66-88 of audio.go for one direction: the channel count of a direction. -/
def resolveChannels (device : Option DeviceInfo) (maxChannels : DeviceInfo → Int)
    (override : Int) (msg : String) : Except Error Int :=
  match device with
  | none => .ok 0
  | some d => if maxChannels d = 0 then .error (.new msg) else .ok (clampOverride override (maxChannels d))

/-- Lines 90-112 of audio.go for one direction: the latency of a direction. -/
def resolveLatency (device : Option DeviceInfo) (defaultLow : DeviceInfo → Duration)
    (override : Duration) (msg : String) : Except Error Duration :=
  match device with
  | none => .ok 0
  | some d => if defaultLow d = 0 then .error (.new msg) else .ok (clampOverride override (defaultLow d))

/-- Lines 114-122 of audio.go: the sample rate. -/
def resolveSampleRate (options : streamOptions) (inputDevice outputDevice : Option DeviceInfo) :
    F64 :=
  let sampleRate := F64.ofInt options.sampleRate
  if sampleRate.isZero then
    match inputDevice, outputDevice with
    | some d, _ => d.DefaultSampleRate
    | none, some d => d.DefaultSampleRate
    | none, none => sampleRate
  else sampleRate

/-- Lines 127-134 of audio.go: the latency the buffer length is derived from. -/
def bufferLatency (inputLatency outputLatency : Duration) : Duration :=
  if inputLatency > 0 ∨ outputLatency > 0 then
    (if inputLatency > outputLatency then inputLatency else outputLatency)
  else 10 * Millisecond

/-- Lines 124-137 of audio.go: the buffer length in frames. -/
def resolveBufferSamples (options : streamOptions) (sampleRate : F64)
    (inputLatency outputLatency : Duration) : Int :=
  if options.bufferSamples = 0 then
    (F64.mul sampleRate (Duration.Seconds (bufferLatency inputLatency outputLatency))).toInt
  else options.bufferSamples

/-- Lines 66-137 of `Open`: from the options and the two devices (nil when the
direction is not used) to the resolved values, or the error `Open` returns. -/
def negotiate (options : streamOptions) (inputDevice outputDevice : Option DeviceInfo) :
    Except Error StreamConfig :=
  match resolveChannels inputDevice DeviceInfo.MaxInputChannels options.inputChannels
      "input device has no input channels" with
  | .error err => .error err
  | .ok inputChannels =>
  match resolveChannels outputDevice DeviceInfo.MaxOutputChannels options.outputChannels
      "output device has no output channels" with
  | .error err => .error err
  | .ok outputChannels =>
  match resolveLatency inputDevice DeviceInfo.DefaultLowInputLatency options.inputLatency
      "input device has no input latency" with
  | .error err => .error err
  | .ok inputLatency =>
  match resolveLatency outputDevice DeviceInfo.DefaultLowOutputLatency options.outputLatency
      "output device has no output latency" with
  | .error err => .error err
  | .ok outputLatency =>
  let sampleRate := resolveSampleRate options inputDevice outputDevice
  .ok { inputChannels := inputChannels
        outputChannels := outputChannels
        inputLatency := inputLatency
        outputLatency := outputLatency
        sampleRate := sampleRate
        bufferSamples := resolveBufferSamples options sampleRate inputLatency outputLatency }

/-- Lines 45-54 of `Open`: the input device. -/
def resolveInputDevice {T : Type} (options : streamOptions) (drv : Driver T) :
    Except Error (Option DeviceInfo) :=
  if options.defaultInput then
    match GetDefaultInputDevice drv with
    | .error err => .error err
    | .ok device => .ok (some device.info)
  else .ok (options.inputDevice.map Device.info)

/-- Lines 55-64 of `Open`: the output device. -/
def resolveOutputDevice {T : Type} (options : streamOptions) (drv : Driver T) :
    Except Error (Option DeviceInfo) :=
  if options.defaultOutput then
    match GetDefaultOutputDevice drv with
    | .error err => .error err
    | .ok device => .ok (some device.info)
  else .ok (options.outputDevice.map Device.info)

/-- The parameters `Open` passes to `portaudio.OpenStream`. -/
def streamParameters (inputDevice outputDevice : Option DeviceInfo) (c : StreamConfig) :
    StreamParameters :=
  { Input := { Device := inputDevice, Channels := c.inputChannels, Latency := c.inputLatency }
    Output := { Device := outputDevice, Channels := c.outputChannels, Latency := c.outputLatency }
    SampleRate := c.sampleRate
    FramesPerBuffer := c.bufferSamples }

/-- Lines 138-176 of `Open`: the buffers are allocated (`ibuf` and the pool only with
an input device, `obuf` only with an output device), then the stream is opened. -/
def openResolved {T : Type} [Inhabited T] (inputDevice outputDevice : Option DeviceInfo)
    (c : StreamConfig) (drv : Driver T) :
    Outcome (Except Error (Stream T)) × Driver T :=
  let ibuf? : Option (List T) :=
    if inputDevice.isSome then make T (wrapInt64 (c.inputChannels * c.bufferSamples)) else some []
  match ibuf? with
  | none => (.panic "makeslice: len out of range", drv)
  | some ibuf =>
  let pool : Option (framePool T) :=
    if inputDevice.isSome then some (newFramePool ibuf.length) else none
  let obuf? : Option (List T) :=
    if outputDevice.isSome then make T (wrapInt64 (c.outputChannels * c.bufferSamples)) else some []
  match obuf? with
  | none => (.panic "makeslice: len out of range", drv)
  | some obuf =>
  let args : List (List T) :=
    (if inputDevice.isSome then [ibuf] else []) ++ (if outputDevice.isSome then [obuf] else [])
  let params := streamParameters inputDevice outputDevice c
  let drv1 : Driver T := { drv with opened := drv.opened ++ [params] }
  match drv.openStream params args with
  | some err => (.ret (.error (.wrap "failed to open audio stream" err)), drv1)
  | none => (.ret (.ok { stream := params, ibuf := ibuf, obuf := obuf, framePool := pool }), drv1)

/-- The function `Open` on already applied options. -/
def openWith {T : Type} [Inhabited T] (options : streamOptions) (drv : Driver T) :
    Outcome (Except Error (Stream T)) × Driver T :=
  match resolveInputDevice options drv with
  | .error err => (.ret (.error err), drv)
  | .ok inputDevice =>
  match resolveOutputDevice options drv with
  | .error err => (.ret (.error err), drv)
  | .ok outputDevice =>
  match negotiate options inputDevice outputDevice with
  | .error err => (.ret (.error err), drv)
  | .ok c => openResolved inputDevice outputDevice c drv

/-- The function `Open` of audio.go. -/
def Open {T : Type} [Inhabited T] (opts : List StreamOption) (drv : Driver T) :
    Outcome (Except Error (Stream T)) × Driver T :=
  openWith (applyOptions opts) drv

/-! ## Reading and writing (audio/audio.go) -/

/-- The call `s.stream.Read()`: the host fills the input buffer and answers. Without
a scripted answer the host leaves the buffer and returns nil. -/
def driverRead {T : Type} (s : Stream T) (drv : Driver T) :
    Option Error × Stream T × Driver T :=
  match drv.readScript with
  | [] => (none, s, { drv with reads := drv.reads + 1 })
  | (err, captured) :: rest =>
    (err, { s with ibuf := goCopy s.ibuf captured },
      { drv with readScript := rest, reads := drv.reads + 1 })

/-- The call `s.stream.Write()`: the host plays the output buffer and answers. Without
a scripted answer it returns nil. -/
def driverWrite {T : Type} (s : Stream T) (drv : Driver T) : Option Error × Driver T :=
  match drv.writeScript with
  | [] => (none, { drv with played := drv.played ++ [s.obuf] })
  | err :: rest => (err, { drv with writeScript := rest, played := drv.played ++ [s.obuf] })

/-- The method `Stream.Read`; `pick` is the choice `sync.Pool.Get` makes. The pair
returned is `(*Frame, error)`, nil being `none`. -/
def Stream.Read {T : Type} [Inhabited T] (s : Stream T) (drv : Driver T) (pick : Nat) :
    Outcome (Option (Frame T) × Option Error) × Stream T × Driver T :=
  match driverRead s drv with
  | (err, s1, drv1) =>
  if errorsIs err .InputOverflowed then
    (.ret (none, some .ErrInputOverflowed), s1, drv1)
  else
  match err with
  | some e => (.ret (none, some (.wrap "failed to read input stream" e)), s1, drv1)
  | none =>
  match s1.framePool with
  | none => (.panic "invalid memory address or nil pointer dereference", s1, drv1)
  | some pool =>
  match pool.Get pick with
  | (frame, pool1) =>
  let frame1 : Frame T := { frame with data := goCopy frame.data s1.ibuf }
  (.ret (some frame1, none), { s1 with framePool := some pool1 }, drv1)

/-- The method `Stream.Write`. -/
def Stream.Write {T : Type} (s : Stream T) (frame : List T) (drv : Driver T) :
    Option Error × Stream T × Driver T :=
  if frame.length ≠ s.obuf.length then
    (some (.new "invalid frame size"), s, drv)
  else
  let s1 : Stream T := { s with obuf := goCopy s.obuf frame }
  match driverWrite s1 drv with
  | (err, drv1) =>
  if errorsIs err .OutputUnderflowed then
    (some .ErrOutputOverflowed, s1, drv1)
  else
  match err with
  | some e => (some (.wrap "failed to write output stream" e), s1, drv1)
  | none => (none, s1, drv1)

/-! ## The frame reader (rtlfm/frame.go) -/

/-- A byte. -/
abbrev Byte := Fin 256

/-- One call of the `Read` method of an `io.Reader`, as the source will answer it: the
bytes it has ready and the error it reports with them (nil when `none`). A call with a
buffer shorter than `bytes` takes the front of them, without error, and leaves the
rest, with the error, for the next call. -/
structure ReadEvent where
  bytes : List Byte
  err : Option Error
deriving DecidableEq, Repr

/-- An `io.Reader`: the answers of its coming `Read` calls; once they are used up
every call returns `0, io.EOF`. -/
abbrev Source := List ReadEvent

/-- The loop `for n < min && err == nil { nn, err = r.Read(buf[n:]); n += nn }` of
`io.ReadAtLeast` with `need = min - n` bytes to go and `min = len(buf)`: the bytes
read, the error of the last call, and the reader afterwards. -/
def readLoop : Source → Nat → List Byte × Option Error × Source
  | [], need => if need = 0 then ([], none, []) else ([], some .EOF, [])
  | ev :: rest, need =>
    if need = 0 then ([], none, ev :: rest)
    else if need < ev.bytes.length then
      (ev.bytes.take need, none, { bytes := ev.bytes.drop need, err := ev.err } :: rest)
    else
      match ev.err with
      | some e => (ev.bytes, some e, rest)
      | none =>
        match readLoop rest (need - ev.bytes.length) with
        | (bs, err, src) => (ev.bytes ++ bs, err, src)

/-- The function `io.ReadFull(r, buf)` with `len(buf) = size`, that is
`io.ReadAtLeast(r, buf, len(buf))`: after the loop,
`if n >= min { err = nil } else if n > 0 && err == EOF { err = ErrUnexpectedEOF }`. -/
def ReadFull (r : Source) (size : Nat) : List Byte × Option Error × Source :=
  match readLoop r size with
  | (bs, err, src) =>
    if size ≤ bs.length then (bs, none, src)
    else if 0 < bs.length ∧ err = some .EOF then (bs, some .ErrUnexpectedEOF, src)
    else (bs, err, src)

/-- The conversion `int16(binary.LittleEndian.Uint16(b))` of two bytes, low byte
first. -/
def decodeInt16 (lo hi : Byte) : Int :=
  let u : Int := (lo.val : Int) + 256 * (hi.val : Int)
  if u < 32768 then u else u - 65536

/-- The loop `for i := range data { data[i] = int16(order.Uint16(bs[2*i:])) }`. -/
def decodeFrame : List Byte → List Int
  | lo :: hi :: rest => decodeInt16 lo hi :: decodeFrame rest
  | _ => []

/-- The function `binary.Read(r, binary.LittleEndian, frame)` for a non-empty
`frame []int16`: `2 * len(frame)` bytes are read with `io.ReadFull`; an error is
returned as it is and leaves the frame, otherwise every sample is decoded. -/
def binaryRead (r : Source) (frame : List Int) : Option Error × Source × List Int :=
  match ReadFull r (2 * frame.length) with
  | (bs, err, src) =>
    match err with
    | some e => (some e, src, frame)
    | none => (none, src, decodeFrame bs)

/-- The struct `frameReader`; a nil `buf` is `none`. -/
structure frameReader where
  r : Source
  buf : Option (List Byte)
deriving DecidableEq, Repr

/-- The function `NewFrameReader`. -/
def NewFrameReader (r : Source) : frameReader := { r := r, buf := none }

/-- The method `frameReader.Read`: the error returned, the reader and the frame
afterwards. -/
def frameReader.Read (fr : frameReader) (frame : List Int) :
    Option Error × frameReader × List Int :=
  if frame.length = 0 then (none, fr, frame)
  else
    let size := 2 * frame.length
    let buf : Option (List Byte) :=
      match fr.buf with
      | none => some (List.replicate size 0)
      | some b => if b.length ≠ size then some (List.replicate size 0) else some b
    match binaryRead fr.r frame with
    | (some err, src, frame1) =>
      (some (.wrap "failed to read audio frame" err), { r := src, buf := buf }, frame1)
    | (none, src, frame1) => (none, { r := src, buf := buf }, frame1)

/-- The bytes a reader delivers before it first reports an error or ends. -/
def Source.available : Source → Nat
  | [] => 0
  | ev :: rest => ev.bytes.length + (if ev.err.isSome then 0 else Source.available rest)

/-- All the bytes a reader holds, in order. -/
def Source.allBytes : Source → List Byte
  | [] => []
  | ev :: rest => ev.bytes ++ Source.allBytes rest

/-! ## The streaming loop (play.go) -/

/-- What the loop of `playRadioCommand` works on: `ctx` tells, for each coming check of
`ctx.Done()`, whether the context is done (never, once the list is used up). -/
structure LoopState where
  ctx : List Bool
  r : frameReader
  frame : List Int
  stream : Stream Int
  drv : Driver Int

/-- What one pass through the body of the loop leads to. -/
inductive LoopStep where
  /-- The body reached its end: the loop goes round again. -/
  | next (st : LoopState)
  /-- The statement `break loop`, after which the function returns nil. -/
  | broke (st : LoopState)
  /-- A statement `return err` inside the loop. -/
  | returned (err : Error) (st : LoopState)

/-- One pass through the body of the loop, lines 87-104 of play.go. -/
def loopBody (st : LoopState) : LoopStep :=
  if st.ctx.head? = some true then .broke { st with ctx := st.ctx.tail }
  else
  match st.r.Read st.frame with
  | (some err, r1, frame1) => .returned err { st with ctx := st.ctx.tail, r := r1, frame := frame1 }
  | (none, r1, frame1) =>
  match st.stream.Write frame1 st.drv with
  | (err, stream1, drv1) =>
  let st1 : LoopState :=
    { ctx := st.ctx.tail, r := r1, frame := frame1, stream := stream1, drv := drv1 }
  if errorsIs err .ErrOutputOverflowed then .next st1
  else
  match err with
  | some e => .returned e st1
  | none => .next st1

/-- The loop of `playRadioCommand` followed by `return nil`, run for at most `fuel`
passes: the error returned (nil when `none`) and the final state, or `none` when the
loop is still running after `fuel` passes. -/
def runLoop : Nat → LoopState → Option (Option Error × LoopState)
  | 0, _ => none
  | fuel + 1, st =>
    match loopBody st with
    | .next st1 => runLoop fuel st1
    | .broke st1 => some (none, st1)
    | .returned err st1 => some (some err, st1)

/-! ## The wording of the specification, and concrete devices, hosts and streams -/

/-- The buffer length in the words of the specification:
`round(sampleRate × max(inputLatency, outputLatency, 10ms).seconds())`, in exact
arithmetic. -/
def specBufferLength (sampleRate : ℚ) (inputLatency outputLatency : Duration) : Int :=
  round (sampleRate *
    (((max (max inputLatency outputLatency) (10 * Millisecond) : Int) : ℚ) / 1000000000))

/-- An output device: `channels` output channels, default low output latency `latency`,
default sample rate `rate`. -/
def outputOnlyDevice (channels : Int) (latency : Duration) (rate : Int) : DeviceInfo :=
  { Name := "out"
    MaxInputChannels := 0
    MaxOutputChannels := channels
    DefaultLowInputLatency := 0
    DefaultLowOutputLatency := latency
    DefaultHighInputLatency := 0
    DefaultHighOutputLatency := 0
    DefaultSampleRate := F64.ofInt rate }

/-- A host without default devices that opens every stream it is asked for and
answers the reads and writes as scripted. -/
def scriptedHost (reads : List (Option Error × List Int)) (writes : List (Option Error)) :
    Driver Int :=
  { defaultInputDevice := .error (.host (-9996))
    defaultOutputDevice := .error (.host (-9996))
    openStream := fun _ _ => none
    readScript := reads
    writeScript := writes
    opened := []
    reads := 0
    played := [] }

/-- The host `scriptedHost [] []` after it has opened one stream with parameters `p`. -/
def openedHost (p : StreamParameters) : Driver Int :=
  { scriptedHost [] [] with opened := [p] }

/-- The stream `Open` gives for `outputOnlyDevice channels latency rate` alone, when it
resolves the buffer length to `frames`. -/
def outputStream (channels : Int) (latency : Duration) (rate : Int) (frames : Int) :
    Stream Int :=
  { stream :=
      { Input := { Device := none, Channels := 0, Latency := 0 }
        Output :=
          { Device := some (outputOnlyDevice channels latency rate)
            Channels := channels
            Latency := latency }
        SampleRate := F64.ofInt rate
        FramesPerBuffer := frames }
    ibuf := []
    obuf := List.replicate (channels * frames).toNat 0
    framePool := none }

/-- The stream `Open` gives for no device at all and a sample rate of 48000. -/
def noDeviceStream : Stream Int :=
  { stream :=
      { Input := { Device := none, Channels := 0, Latency := 0 }
        Output := { Device := none, Channels := 0, Latency := 0 }
        SampleRate := F64.ofInt 48000
        FramesPerBuffer := 480 }
    ibuf := []
    obuf := []
    framePool := none }

/-- An input device: `channels` input channels, default low input latency `latency`,
default sample rate `rate`. -/
def inputOnlyDevice (channels : Int) (latency : Duration) (rate : Int) : DeviceInfo :=
  { Name := "in"
    MaxInputChannels := channels
    MaxOutputChannels := 0
    DefaultLowInputLatency := latency
    DefaultLowOutputLatency := 0
    DefaultHighInputLatency := 0
    DefaultHighOutputLatency := 0
    DefaultSampleRate := F64.ofInt rate }

/-- The stream `Open` gives for `inputOnlyDevice channels latency rate` alone, when it
resolves the buffer length to `frames`. -/
def inputStream (channels : Int) (latency : Duration) (rate : Int) (frames : Int) :
    Stream Int :=
  { stream :=
      { Input :=
          { Device := some (inputOnlyDevice channels latency rate)
            Channels := channels
            Latency := latency }
        Output := { Device := none, Channels := 0, Latency := 0 }
        SampleRate := F64.ofInt rate
        FramesPerBuffer := frames }
    ibuf := List.replicate (channels * frames).toNat 0
    obuf := []
    framePool := some (newFramePool (channels * frames).toNat) }

/-- A loop state for the two-sample output stream: the host reports an output
underflow at the first write, the producer has four bytes ready, and the context is
done at the second check. -/
def underflowLoopState : LoopState :=
  { ctx := [false, true]
    r := NewFrameReader [{ bytes := [0x34, 0x12, 0xff, 0xff], err := none }]
    frame := [0, 0]
    stream := outputStream 1 (5 * Millisecond) 400 2
    drv := scriptedHost [] [some .OutputUnderflowed] }

/-! ## Frequencies (rtlfm/rtlfm.go) -/

/-- The type `Frequency`, a Go `int`. -/
abbrev Frequency := Int

/-- The constant `KiloHertz`. -/
def KiloHertz : Frequency := 1000

/-- The constant `MegaHertz`. -/
def MegaHertz : Frequency := 1000 * KiloHertz

/-- The function `strconv.Itoa`, which is also what the verb `%d` of `fmt.Sprintf`
prints: the decimal digits, after a minus sign for a negative number. -/
def Itoa (n : Int) : String :=
  if n < 0 then "-" ++ Nat.repr n.natAbs else Nat.repr n.natAbs

/-- The method `Frequency.String`. -/
def Frequency.String (f : Frequency) : String :=
  if f < KiloHertz then Itoa f
  else if f < MegaHertz then
    let i := Int.tdiv f KiloHertz
    let d := Int.tmod f KiloHertz
    Itoa i ++ "." ++ Itoa d ++ "K"
  else
    let i := Int.tdiv f MegaHertz
    let d := Int.tmod f MegaHertz
    Itoa i ++ "." ++ Itoa d ++ "M"

/-- What a parsing function of the library gives: a value, an error, or, for a text
whose notation this development does not cover, no answer. -/
inductive Parsed (α : Type) where
  | value (v : α)
  | failed
  | notModelled
deriving DecidableEq, Repr

/-- The value of a decimal digit; `none` for any other byte. -/
def digitValue (c : Char) : Option Nat :=
  if 48 ≤ c.toNat ∧ c.toNat ≤ 57 then some (c.toNat - 48) else none

/-- The number that decimal digits write after the digits already read as `acc`;
`none` if a byte is not a digit. -/
def digitsValue : List Char → Nat → Option Nat
  | [], acc => some acc
  | c :: cs, acc =>
    match digitValue c with
    | none => none
    | some d => digitsValue cs (acc * 10 + d)

/-- An optional sign in front of a text: whether it is a minus sign, and the rest. -/
def splitSign : List Char → Bool × List Char
  | '-' :: rest => (true, rest)
  | '+' :: rest => (false, rest)
  | s => (false, s)

/-- The function `strconv.Atoi`: an optional sign and one or more decimal digits, the
number within the range of `int`; `none` is an error. -/
def Atoi (s : List Char) : Option Int :=
  match splitSign s with
  | (neg, body) =>
    if body = [] then none
    else
      match digitsValue body 0 with
      | none => none
      | some n =>
        let v : Int := if neg then -(n : Int) else (n : Int)
        if minInt64 ≤ v ∧ v ≤ maxInt64 then some v else none

/-- The exponent that the digits after `e` write, read as `strconv` reads it:
`if e < 10000 { e = e*10 + digit }`; `none` if a byte is not a digit. -/
def exponentValue : List Char → Nat → Option Nat
  | [], acc => some acc
  | c :: cs, acc =>
    match digitValue c with
    | none => none
    | some d => exponentValue cs (if acc < 10000 then acc * 10 + d else acc)

/-- The exponent part of a decimal floating-point text: nothing, or `e` or `E`, an
optional sign and one or more digits; `none` is a syntax error. -/
def parseExponent : List Char → Option Int
  | [] => some 0
  | c :: rest =>
    if c = 'e' ∨ c = 'E' then
      match splitSign rest with
      | (neg, digits) =>
        if digits = [] then none
        else
          match exponentValue digits 0 with
          | none => none
          | some e => some (if neg then -(e : Int) else (e : Int))
    else none

/-- The test that a float64 lies beyond the largest finite value of the format, that
is, that its magnitude is `2 ^ 1024` or more, so that the library reports a range
error. -/
def F64.overflows (x : F64) : Bool :=
  decide (1024 < (bitLen x.m.natAbs : Int) + x.e)

/-- The bytes of decimal floating-point notation. -/
def isDecimalByte (c : Char) : Bool :=
  (digitValue c).isSome || c = '+' || c = '-' || c = '.' || c = 'e' || c = 'E'

/-- The function `strconv.ParseFloat(s, 64)` on decimal notation: an optional sign,
digits with at most one point among them and at least one digit, an optional exponent.
The result is the float64 nearest to the number written, ties to even, and an error when
that is beyond the finite range. A text with a byte outside decimal notation (the
library also reads hexadecimal numbers, infinities and NaN) gets no answer here. -/
def ParseFloat (s : List Char) : Parsed F64 :=
  if s.all isDecimalByte then
    match splitSign s with
    | (neg, body) =>
      match body.span (fun c => (digitValue c).isSome) with
      | (intDigits, rest1) =>
        match (match rest1 with
          | '.' :: afterPoint => afterPoint.span (fun c => (digitValue c).isSome)
          | _ => ([], rest1)) with
        | (fracDigits, rest2) =>
          if intDigits ++ fracDigits = [] then .failed
          else
            match digitsValue (intDigits ++ fracDigits) 0, parseExponent rest2 with
            | some mant, some e =>
              let k : Int := e - (fracDigits.length : Int)
              let n : Int := if neg then -(mant : Int) else (mant : Int)
              let x : F64 :=
                if 0 ≤ k then F64.round (n * 10 ^ k.toNat) 1 0
                else F64.round n (10 ^ (-k).toNat) 0
              if x.overflows then .failed else .value x
            | _, _ => .failed
  else .notModelled

/-- The function `ParseFrequency`; `failed` is the result `0, errParseFrequency`. -/
def ParseFrequency (s : String) : Parsed Frequency :=
  if s.data.length = 0 then .failed
  else
    match s.data.getLast? with
    | none => .failed
    | some unit =>
      if unit = 'K' ∨ unit = 'M' then
        let t := s.data.dropLast
        if t.length = 0 then .failed
        else
          match ParseFloat t with
          | .notModelled => .notModelled
          | .failed => .failed
          | .value f =>
            if unit = 'K' then .value (F64.mul f (F64.ofInt KiloHertz)).toInt
            else .value (F64.mul f (F64.ofInt MegaHertz)).toInt
      else
        match Atoi s.data with
        | none => .failed
        | some f => .value f

/-- The struct `playOptions` of package rtlfm. -/
structure playOptions where
  commandPath : String := ""
  sampleRate : Int := 0
  enableLowerEdgeTuning : Bool := false
  enableDCBlockingFilter : Bool := false
  enableDeEmphasisFilter : Bool := false
  enableDirectSampling : Bool := false
  enableOffsetTuning : Bool := false
deriving DecidableEq, Repr

/-- The function `makeArguments`. -/
def makeArguments (freq : Frequency) (options : playOptions) : List String :=
  ["-M", "wbfm", "-f", Frequency.String freq, "-s", "400k"]
    ++ (if options.sampleRate > 0 then ["-r", Itoa options.sampleRate] else [])
    ++ (if options.enableLowerEdgeTuning then ["-E", "edge"] else [])
    ++ (if options.enableDCBlockingFilter then ["-E", "dc"] else [])
    ++ (if options.enableDeEmphasisFilter then ["-E", "deemp"] else [])
    ++ (if options.enableDirectSampling then ["-E", "direct"] else [])
    ++ (if options.enableOffsetTuning then ["-E", "offset"] else [])

/-! ## The set-up of the streaming loop (play.go) -/

/-- Line 40 of play.go: `sampleRate * 10 / 1000`, in 64-bit arithmetic, the quotient
towards zero. -/
def playBufferSamples (sampleRate : Int) : Int :=
  Int.tdiv (wrapInt64 (sampleRate * 10)) 1000

/-- Lines 42-47 of play.go: the options `playRadioCommand` passes to `audio.Open`,
with `channels = 1`. -/
def playOpenOptions (device : Device) (sampleRate : Int) : List StreamOption :=
  [.WithOutputDevice (some device), .WithOutputChannels 1, .WithSampleRate sampleRate,
    .WithBufferSamples (playBufferSamples sampleRate)]

/-- Lines 83-86 of play.go: the frame reader on the process `p` and
`frame := make([]int16, bufferSamples)`, with which the loop starts on the opened
stream; `none` when `make` panics. -/
def playLoopStart (sampleRate : Int) (stream : Stream Int) (drv : Driver Int)
    (ctx : List Bool) (p : Source) : Option LoopState :=
  match make Int (playBufferSamples sampleRate) with
  | none => none
  | some frame =>
    some { ctx := ctx, r := NewFrameReader p, frame := frame, stream := stream, drv := drv }

/-! ## float64: facts -/

theorem bitLenAux_zero (fuel : Nat) : bitLenAux fuel 0 = 0 := by
  cases fuel <;> simp [bitLenAux]

theorem bitLenAux_bounds (fuel : Nat) :
    ∀ n, n ≤ fuel → n ≠ 0 →
      2 ^ (bitLenAux fuel n - 1) ≤ n ∧ n < 2 ^ bitLenAux fuel n ∧ 0 < bitLenAux fuel n := by
  induction fuel with
  | zero => intro n hn h0; omega
  | succ fuel ih =>
    intro n hn h0
    simp only [bitLenAux, if_neg h0]
    by_cases h2 : n / 2 = 0
    · have h1 : n = 1 := by omega
      subst h1
      simp [bitLenAux_zero]
    · obtain ⟨hlo, hhi, hpos⟩ := ih (n / 2) (by omega) h2
      refine ⟨?_, ?_, by omega⟩
      · have e : bitLenAux fuel (n / 2) + 1 - 1 = (bitLenAux fuel (n / 2) - 1) + 1 := by omega
        rw [e, pow_succ]
        omega
      · rw [pow_succ]
        omega

theorem bitLen_bounds (n : Nat) (h0 : n ≠ 0) :
    2 ^ (bitLen n - 1) ≤ n ∧ n < 2 ^ bitLen n ∧ 0 < bitLen n :=
  bitLenAux_bounds n n (le_refl n) h0

theorem bitLen_one : bitLen 1 = 1 := by decide

theorem roundHalfEven_ge (N D : Nat) : N / D ≤ roundHalfEven N D := by
  unfold roundHalfEven
  simp only
  split <;> omega

theorem roundHalfEven_one (N : Nat) : roundHalfEven N 1 = N := by
  unfold roundHalfEven
  simp [Nat.mod_one]

theorem roundHalfEven_scaled_pos (a : Nat) (ha : a ≠ 0) (s : Int)
    (hs : -s ≤ (bitLen a : Int) - 1) :
    0 < roundHalfEven (scaled a 1 s).1 (scaled a 1 s).2 := by
  obtain ⟨hlo, _, hpos⟩ := bitLen_bounds a ha
  refine lt_of_lt_of_le ?_ (roundHalfEven_ge _ _)
  unfold scaled
  split
  · simp only [Nat.div_one]
    exact Nat.mul_pos (Nat.pos_of_ne_zero ha) (Nat.pow_pos (by decide))
  · simp only [one_mul]
    apply Nat.div_pos _ (Nat.pow_pos (by decide))
    calc 2 ^ (-s).toNat ≤ 2 ^ (bitLen a - 1) :=
          Nat.pow_le_pow_right (by decide) (by omega)
      _ ≤ a := hlo

theorem roundShift_one_ge (a : Nat) : 53 - (bitLen a : Int) ≤ roundShift a 1 := by
  unfold roundShift
  simp only [bitLen_one, Nat.cast_one]
  split <;> omega

/-- Rounding a nonzero integer never gives a zero significand. -/
theorem F64.round_one_m_ne_zero (n : Int) (e : Int) (hn : n ≠ 0) :
    (F64.round n 1 e).m ≠ 0 := by
  have ha : n.natAbs ≠ 0 := by simpa using hn
  obtain ⟨_, _, hpos⟩ := bitLen_bounds n.natAbs ha
  have hs := roundShift_one_ge n.natAbs
  have h2 := roundHalfEven_scaled_pos n.natAbs ha (roundShift n.natAbs 1) (by omega)
  simp only [F64.round, ha, false_or, if_false, one_ne_zero]
  intro h
  rcases Int.mul_eq_zero.mp h with h1 | h1
  · exact hn (Int.sign_eq_zero_iff_zero.mp h1)
  · rw [Int.natCast_eq_zero.mp h1] at h2
    exact absurd h2 (lt_irrefl 0)

/-- The test `float64(n) == 0` holds only for `n = 0`. -/
theorem F64.ofInt_isZero (n : Int) : (F64.ofInt n).isZero = true ↔ n = 0 := by
  constructor
  · intro h
    by_contra hn
    exact F64.round_one_m_ne_zero n 0 hn (by simpa [F64.isZero, F64.ofInt] using h)
  · intro h
    subst h
    decide

theorem bitLen_le_of_lt (a : Nat) (ha : a ≠ 0) (hlt : a < 2 ^ 53) : bitLen a ≤ 53 := by
  obtain ⟨hlo, _, _⟩ := bitLen_bounds a ha
  by_contra hc
  have h1 : 2 ^ 53 ≤ 2 ^ (bitLen a - 1) := Nat.pow_le_pow_right (by decide) (by omega)
  omega

theorem roundShift_exact (a : Nat) (ha : a ≠ 0) (hlt : a < 2 ^ 53) :
    roundShift a 1 = ((53 - bitLen a : Nat) : Int) := by
  obtain ⟨hlo, _, hpos⟩ := bitLen_bounds a ha
  have hle := bitLen_le_of_lt a ha hlt
  have hs : (0 : Int) ≤ 53 - ((bitLen a : Int) - 1) := by omega
  have hnot : ¬ a * 2 ^ (54 - bitLen a) < 2 ^ 53 := by
    have h1 : 2 ^ (bitLen a - 1) * 2 ^ (54 - bitLen a) ≤ a * 2 ^ (54 - bitLen a) :=
      Nat.mul_le_mul_right _ hlo
    rw [← pow_add] at h1
    have e : bitLen a - 1 + (54 - bitLen a) = 53 := by omega
    rw [e] at h1
    omega
  have hn : (53 - ((bitLen a : Int) - 1)).toNat = 54 - bitLen a := by omega
  unfold roundShift
  simp only [bitLen_one, Nat.cast_one, scaled, hs, if_true, Nat.div_one, hn, hnot, if_false]
  omega

/-- An integer of magnitude below `2 ^ 53` is converted to float64 without rounding. -/
theorem F64.ofInt_toRat (n : Int) (h : n.natAbs < 2 ^ 53) : (F64.ofInt n).toRat = (n : ℚ) := by
  by_cases hn : n = 0
  · subst hn
    have e : F64.ofInt 0 = ⟨0, 0⟩ := by decide
    simp [e, F64.toRat]
  · have ha : n.natAbs ≠ 0 := by simpa using hn
    have hs := roundShift_exact n.natAbs ha h
    have hk : (0 : Int) ≤ ((53 - bitLen n.natAbs : Nat) : Int) := Int.natCast_nonneg _
    simp only [F64.ofInt, F64.round, ha, false_or, if_false, one_ne_zero, hs, scaled, hk, if_true,
      Int.toNat_natCast, roundHalfEven_one, F64.toRat, zero_sub, zpow_neg, zpow_natCast]
    have h2 : ((2 : ℚ) ^ (53 - bitLen n.natAbs)) ≠ 0 := pow_ne_zero _ (by norm_num)
    have h3 : ((n.sign : ℚ) * ((n.natAbs : ℤ) : ℚ)) = (n : ℚ) := by
      rw [← Int.cast_mul, Int.sign_mul_natAbs]
    simp only [Int.cast_mul, Nat.cast_mul, Nat.cast_pow, Nat.cast_ofNat, Int.cast_pow,
      Int.cast_ofNat]
    rw [← mul_assoc, h3, mul_assoc, mul_inv_cancel₀ h2, mul_one]

/-! ## Opening a stream: facts -/

theorem negotiate_ok {options : streamOptions} {inputDevice outputDevice : Option DeviceInfo}
    {c : StreamConfig} (h : negotiate options inputDevice outputDevice = .ok c) :
    resolveChannels inputDevice DeviceInfo.MaxInputChannels options.inputChannels
        "input device has no input channels" = .ok c.inputChannels ∧
    resolveChannels outputDevice DeviceInfo.MaxOutputChannels options.outputChannels
        "output device has no output channels" = .ok c.outputChannels ∧
    resolveLatency inputDevice DeviceInfo.DefaultLowInputLatency options.inputLatency
        "input device has no input latency" = .ok c.inputLatency ∧
    resolveLatency outputDevice DeviceInfo.DefaultLowOutputLatency options.outputLatency
        "output device has no output latency" = .ok c.outputLatency ∧
    c.sampleRate = resolveSampleRate options inputDevice outputDevice ∧
    c.bufferSamples =
      resolveBufferSamples options c.sampleRate c.inputLatency c.outputLatency := by
  unfold negotiate at h
  split at h
  · cases h
  · split at h
    · cases h
    · split at h
      · cases h
      · split at h
        · cases h
        · cases h
          exact ⟨by assumption, by assumption, by assumption, by assumption, rfl, rfl⟩

theorem openResolved_ok {T : Type} [Inhabited T] {inputDevice outputDevice : Option DeviceInfo}
    {c : StreamConfig} {drv drv1 : Driver T} {s : Stream T}
    (h : openResolved inputDevice outputDevice c drv = (.ret (.ok s), drv1)) :
    s.stream = streamParameters inputDevice outputDevice c ∧
    drv1.opened = drv.opened ++ [s.stream] ∧
    (if inputDevice.isSome then make T (wrapInt64 (c.inputChannels * c.bufferSamples))
      else some []) = some s.ibuf ∧
    (if outputDevice.isSome then make T (wrapInt64 (c.outputChannels * c.bufferSamples))
      else some []) = some s.obuf := by
  unfold openResolved at h
  simp only at h
  split at h
  · cases h
  · split at h
    · cases h
    · split at h
      · cases h
      · cases h
        exact ⟨rfl, rfl, by assumption, by assumption⟩

theorem openWith_ok {T : Type} [Inhabited T] {options : streamOptions} {drv drv1 : Driver T}
    {s : Stream T} (h : openWith options drv = (.ret (.ok s), drv1)) :
    ∃ inputDevice outputDevice c,
      resolveInputDevice options drv = .ok inputDevice ∧
      resolveOutputDevice options drv = .ok outputDevice ∧
      negotiate options inputDevice outputDevice = .ok c ∧
      openResolved inputDevice outputDevice c drv = (.ret (.ok s), drv1) := by
  unfold openWith at h
  split at h
  · cases h
  · split at h
    · cases h
    · split at h
      · cases h
      · exact ⟨_, _, _, by assumption, by assumption, by assumption, h⟩

theorem resolveChannels_some {d : DeviceInfo} {maxChannels : DeviceInfo → Int} {override ch : Int}
    {msg : String} (h : resolveChannels (some d) maxChannels override msg = .ok ch) :
    maxChannels d ≠ 0 ∧ ch = clampOverride override (maxChannels d) := by
  unfold resolveChannels at h
  simp only at h
  split at h
  · cases h
  · cases h
    exact ⟨by assumption, rfl⟩

theorem resolveChannels_none {maxChannels : DeviceInfo → Int} {override ch : Int}
    {msg : String} (h : resolveChannels none maxChannels override msg = .ok ch) : ch = 0 := by
  unfold resolveChannels at h
  cases h
  rfl

theorem resolveLatency_some {d : DeviceInfo} {defaultLow : DeviceInfo → Duration}
    {override l : Duration} {msg : String}
    (h : resolveLatency (some d) defaultLow override msg = .ok l) :
    defaultLow d ≠ 0 ∧ l = clampOverride override (defaultLow d) := by
  unfold resolveLatency at h
  simp only at h
  split at h
  · cases h
  · cases h
    exact ⟨by assumption, rfl⟩

theorem resolveLatency_none {defaultLow : DeviceInfo → Duration} {override l : Duration}
    {msg : String} (h : resolveLatency none defaultLow override msg = .ok l) : l = 0 := by
  unfold resolveLatency at h
  cases h
  rfl

theorem clampOverride_eq (override limit : Int) :
    clampOverride override limit =
      if 0 < override ∧ override ≤ limit then override else limit := by
  unfold clampOverride
  split <;> split <;> omega

/-- What a successful `Open` has gone through. -/
theorem Open_ok {T : Type} [Inhabited T] {opts : List StreamOption} {drv drv1 : Driver T}
    {s : Stream T} (h : Open opts drv = (.ret (.ok s), drv1)) :
    ∃ c,
      negotiate (applyOptions opts) s.stream.Input.Device s.stream.Output.Device = .ok c ∧
      resolveInputDevice (applyOptions opts) drv = .ok s.stream.Input.Device ∧
      resolveOutputDevice (applyOptions opts) drv = .ok s.stream.Output.Device ∧
      s.stream = streamParameters s.stream.Input.Device s.stream.Output.Device c ∧
      drv1.opened = drv.opened ++ [s.stream] ∧
      (if s.stream.Input.Device.isSome then make T (wrapInt64 (c.inputChannels * c.bufferSamples))
        else some []) = some s.ibuf ∧
      (if s.stream.Output.Device.isSome then
        make T (wrapInt64 (c.outputChannels * c.bufferSamples)) else some []) = some s.obuf := by
  obtain ⟨i, o, c, hi, ho, hc, hr⟩ := openWith_ok h
  obtain ⟨hs, hd, hib, hob⟩ := openResolved_ok hr
  have e1 : s.stream.Input.Device = i := by rw [hs]; rfl
  have e2 : s.stream.Output.Device = o := by rw [hs]; rfl
  rw [e1, e2]
  exact ⟨c, hc, hi, ho, hs, hd, hib, hob⟩

/-- The output buffer of a stream `Open` returns for an output device has
`outputChannels * bufferSamples` samples, the product taken in 64-bit arithmetic. -/
theorem Open_obuf_length {T : Type} [Inhabited T] {opts : List StreamOption}
    {drv drv1 : Driver T} {s : Stream T} (h : Open opts drv = (.ret (.ok s), drv1))
    (ho : s.stream.Output.Device.isSome = true) :
    0 ≤ wrapInt64 (s.stream.Output.Channels * s.stream.FramesPerBuffer) ∧
    s.obuf.length = (wrapInt64 (s.stream.Output.Channels * s.stream.FramesPerBuffer)).toNat := by
  obtain ⟨c, _, _, _, hs, _, _, hob⟩ := Open_ok h
  have e1 : s.stream.FramesPerBuffer = c.bufferSamples := by rw [hs]; rfl
  have e2 : s.stream.Output.Channels = c.outputChannels := by rw [hs]; rfl
  rw [e1, e2]
  rw [if_pos ho] at hob
  unfold make at hob
  split at hob
  · cases hob
  · have e3 := Option.some.inj hob
    rw [← e3]
    exact ⟨by omega, by simp⟩

/-! ## C1: the buffer length -/

/-- C1, as amended. When `Open` succeeds: a nonzero `bufferSamples` option is the buffer
length; with the option at zero the buffer length is
`int(float64(sampleRate) * latency.Seconds())`, the float64 product with its fraction
discarded, where `latency` is the larger of the two resolved latencies when one of them
is positive and 10 ms when none is; at a resolved sample rate of 48000 with no positive
latency that is 480 frames. -/
theorem open_bufferSamples {T : Type} [Inhabited T] (opts : List StreamOption)
    (drv drv1 : Driver T) (s : Stream T) (h : Open opts drv = (.ret (.ok s), drv1)) :
    ((applyOptions opts).bufferSamples ≠ 0 →
      s.stream.FramesPerBuffer = (applyOptions opts).bufferSamples) ∧
    ((applyOptions opts).bufferSamples = 0 →
      (0 < s.stream.Input.Latency ∨ 0 < s.stream.Output.Latency →
        s.stream.FramesPerBuffer =
          (F64.mul s.stream.SampleRate
            (Duration.Seconds (max s.stream.Input.Latency s.stream.Output.Latency))).toInt) ∧
      (¬ (0 < s.stream.Input.Latency ∨ 0 < s.stream.Output.Latency) →
        s.stream.FramesPerBuffer =
          (F64.mul s.stream.SampleRate (Duration.Seconds (10 * Millisecond))).toInt) ∧
      (¬ (0 < s.stream.Input.Latency ∨ 0 < s.stream.Output.Latency) →
        s.stream.SampleRate = F64.ofInt 48000 → s.stream.FramesPerBuffer = 480)) := by
  obtain ⟨c, hc, _, _, hs, _, _, _⟩ := Open_ok h
  obtain ⟨_, _, _, _, _, hb⟩ := negotiate_ok hc
  have e1 : s.stream.FramesPerBuffer = c.bufferSamples := by rw [hs]; rfl
  have e2 : s.stream.SampleRate = c.sampleRate := by rw [hs]; rfl
  have e3 : s.stream.Input.Latency = c.inputLatency := by rw [hs]; rfl
  have e4 : s.stream.Output.Latency = c.outputLatency := by rw [hs]; rfl
  rw [e1, e2, e3, e4, hb]
  unfold resolveBufferSamples bufferLatency
  refine ⟨fun h0 => by simp [h0], fun h0 => ⟨fun hl => ?_, fun hl => ?_, fun hl hr => ?_⟩⟩
  · have hl1 : c.inputLatency > 0 ∨ c.outputLatency > 0 := hl
    simp only [h0, if_true, hl1]
    by_cases hgt : c.inputLatency > c.outputLatency
    · rw [if_pos hgt, max_eq_left (le_of_lt hgt)]
    · rw [if_neg hgt, max_eq_right (not_lt.mp hgt)]
  · have hl1 : ¬ (c.inputLatency > 0 ∨ c.outputLatency > 0) := hl
    simp only [h0, if_true, hl1, if_false]
  · have hl1 : ¬ (c.inputLatency > 0 ∨ c.outputLatency > 0) := hl
    simp only [h0, if_true, hl1, if_false, hr]
    decide

/-- Witness of `open_bufferSamples`: no device, sample rate 48000, 480 frames. -/
theorem open_bufferSamples_witness :
    Open [.WithSampleRate 48000] (scriptedHost [] []) =
        (.ret (.ok noDeviceStream), openedHost noDeviceStream.stream) ∧
      noDeviceStream.stream.FramesPerBuffer = 480 :=
  ⟨rfl, (open_bufferSamples [.WithSampleRate 48000] (scriptedHost [] [])
    (openedHost noDeviceStream.stream) noDeviceStream rfl).2 (by decide) |>.2.2
      (by decide) (by decide)⟩

/-- C1 fails as stated. An output device with a default low latency of 5 ms at 48000 Hz
is given 240 frames, where the formula of the specification, with its 10 ms floor, gives 480;
and at 44150 Hz with 11 ms the code gives 485 frames, the product 485.65 with its
fraction discarded, where rounding gives 486. -/
theorem open_bufferSamples_not_spec :
    (Open [.WithOutputDevice (some ⟨outputOnlyDevice 2 (5 * Millisecond) 48000⟩)]
        (scriptedHost [] []) =
      (.ret (.ok (outputStream 2 (5 * Millisecond) 48000 240)),
        openedHost (outputStream 2 (5 * Millisecond) 48000 240).stream) ∧
      (applyOptions
        [.WithOutputDevice (some ⟨outputOnlyDevice 2 (5 * Millisecond) 48000⟩)]).bufferSamples = 0 ∧
      (outputStream 2 (5 * Millisecond) 48000 240).stream.FramesPerBuffer = 240 ∧
      specBufferLength (outputStream 2 (5 * Millisecond) 48000 240).stream.SampleRate.toRat
        (outputStream 2 (5 * Millisecond) 48000 240).stream.Input.Latency
        (outputStream 2 (5 * Millisecond) 48000 240).stream.Output.Latency = 480) ∧
    (Open [.WithOutputDevice (some ⟨outputOnlyDevice 1 (11 * Millisecond) 44150⟩)]
        (scriptedHost [] []) =
      (.ret (.ok (outputStream 1 (11 * Millisecond) 44150 485)),
        openedHost (outputStream 1 (11 * Millisecond) 44150 485).stream) ∧
      (outputStream 1 (11 * Millisecond) 44150 485).stream.FramesPerBuffer = 485 ∧
      specBufferLength (outputStream 1 (11 * Millisecond) 44150 485).stream.SampleRate.toRat
        (outputStream 1 (11 * Millisecond) 44150 485).stream.Input.Latency
        (outputStream 1 (11 * Millisecond) 44150 485).stream.Output.Latency = 486) := by
  refine ⟨⟨rfl, by decide, rfl, ?_⟩, ⟨rfl, rfl, ?_⟩⟩
  · have e : (outputStream 2 (5 * Millisecond) 48000 240).stream.SampleRate.toRat = 48000 := by
      have := F64.ofInt_toRat 48000 (by decide)
      simpa [outputStream] using this
    rw [e]
    norm_num [specBufferLength, outputStream, Millisecond]
  · have e : (outputStream 1 (11 * Millisecond) 44150 485).stream.SampleRate.toRat = 44150 := by
      have := F64.ofInt_toRat 44150 (by decide)
      simpa [outputStream] using this
    rw [e]
    norm_num [specBufferLength, outputStream, Millisecond, round_eq, Int.floor_eq_iff]

/-! ## C4: latencies -/

/-- C4, as amended. When `Open` succeeds, the latency of an active direction is the
override if `0 < override ≤` the default low latency of the device in that direction, and
that default otherwise; when the default is positive the latency lies in
`(0, default]`. -/
theorem open_latency {T : Type} [Inhabited T] (opts : List StreamOption)
    (drv drv1 : Driver T) (s : Stream T) (h : Open opts drv = (.ret (.ok s), drv1)) :
    (∀ d, s.stream.Input.Device = some d →
      s.stream.Input.Latency =
        (if 0 < (applyOptions opts).inputLatency ∧
            (applyOptions opts).inputLatency ≤ d.DefaultLowInputLatency
          then (applyOptions opts).inputLatency else d.DefaultLowInputLatency) ∧
      (0 < d.DefaultLowInputLatency →
        0 < s.stream.Input.Latency ∧ s.stream.Input.Latency ≤ d.DefaultLowInputLatency)) ∧
    (∀ d, s.stream.Output.Device = some d →
      s.stream.Output.Latency =
        (if 0 < (applyOptions opts).outputLatency ∧
            (applyOptions opts).outputLatency ≤ d.DefaultLowOutputLatency
          then (applyOptions opts).outputLatency else d.DefaultLowOutputLatency) ∧
      (0 < d.DefaultLowOutputLatency →
        0 < s.stream.Output.Latency ∧ s.stream.Output.Latency ≤ d.DefaultLowOutputLatency)) := by
  obtain ⟨c, hc, _, _, hs, _, _, _⟩ := Open_ok h
  obtain ⟨_, _, hil, hol, _, _⟩ := negotiate_ok hc
  have e3 : s.stream.Input.Latency = c.inputLatency := by rw [hs]; rfl
  have e4 : s.stream.Output.Latency = c.outputLatency := by rw [hs]; rfl
  constructor
  · intro d hd
    rw [hd] at hil
    obtain ⟨_, hl⟩ := resolveLatency_some hil
    rw [e3, hl, clampOverride_eq]
    refine ⟨rfl, fun hpos => ?_⟩
    split
    · assumption
    · exact ⟨hpos, le_refl _⟩
  · intro d hd
    rw [hd] at hol
    obtain ⟨_, hl⟩ := resolveLatency_some hol
    rw [e4, hl, clampOverride_eq]
    refine ⟨rfl, fun hpos => ?_⟩
    split
    · assumption
    · exact ⟨hpos, le_refl _⟩

/-- Witness of `open_latency`: an output device with a default low latency of 5 ms. -/
theorem open_latency_witness :
    Open [.WithOutputDevice (some ⟨outputOnlyDevice 2 (5 * Millisecond) 48000⟩)]
        (scriptedHost [] []) =
      (.ret (.ok (outputStream 2 (5 * Millisecond) 48000 240)),
        openedHost (outputStream 2 (5 * Millisecond) 48000 240).stream) ∧
    0 < (outputStream 2 (5 * Millisecond) 48000 240).stream.Output.Latency ∧
    (outputStream 2 (5 * Millisecond) 48000 240).stream.Output.Latency ≤
      (outputOnlyDevice 2 (5 * Millisecond) 48000).DefaultLowOutputLatency :=
  ⟨rfl, ((open_latency
    [.WithOutputDevice (some ⟨outputOnlyDevice 2 (5 * Millisecond) 48000⟩)]
    (scriptedHost [] []) (openedHost (outputStream 2 (5 * Millisecond) 48000 240).stream)
    (outputStream 2 (5 * Millisecond) 48000 240) rfl).2
      (outputOnlyDevice 2 (5 * Millisecond) 48000) rfl).2 (by decide)⟩

/-- C4 fails as stated. `Open` rejects a default low latency only when it is zero: an
output device that reports a negative one (here one nanosecond below zero) is opened,
with that negative latency. -/
theorem open_latency_negative :
    Open [.WithOutputDevice (some ⟨outputOnlyDevice 2 (-1) 48000⟩)] (scriptedHost [] []) =
      (.ret (.ok (outputStream 2 (-1) 48000 480)),
        openedHost (outputStream 2 (-1) 48000 480).stream) ∧
    (outputStream 2 (-1) 48000 480).stream.Output.Device =
      some (outputOnlyDevice 2 (-1) 48000) ∧
    (outputStream 2 (-1) 48000 480).stream.Output.Latency = -1 ∧
    ¬ (0 < (outputStream 2 (-1) 48000 480).stream.Output.Latency) :=
  ⟨rfl, rfl, rfl, by decide⟩

/-! ## C5: channel counts -/

/-- C5. When the options and devices pass the capability checks of `Open`, the channel
count of an active direction is the override if `0 < override ≤` the maximum of the device
for that direction and that maximum otherwise; it is never 0 and never above the
maximum; the channel count of a direction without device is 0. -/
theorem negotiate_channels (options : streamOptions) (inputDevice outputDevice : Option DeviceInfo)
    (c : StreamConfig) (h : negotiate options inputDevice outputDevice = .ok c) :
    (∀ d, inputDevice = some d →
      c.inputChannels =
        (if 0 < options.inputChannels ∧ options.inputChannels ≤ d.MaxInputChannels
          then options.inputChannels else d.MaxInputChannels) ∧
      c.inputChannels ≠ 0 ∧ c.inputChannels ≤ d.MaxInputChannels) ∧
    (∀ d, outputDevice = some d →
      c.outputChannels =
        (if 0 < options.outputChannels ∧ options.outputChannels ≤ d.MaxOutputChannels
          then options.outputChannels else d.MaxOutputChannels) ∧
      c.outputChannels ≠ 0 ∧ c.outputChannels ≤ d.MaxOutputChannels) ∧
    (inputDevice = none → c.inputChannels = 0) ∧
    (outputDevice = none → c.outputChannels = 0) := by
  obtain ⟨hic, hoc, _, _, _, _⟩ := negotiate_ok h
  refine ⟨fun d hd => ?_, fun d hd => ?_, fun hd => ?_, fun hd => ?_⟩
  · rw [hd] at hic
    obtain ⟨h0, hl⟩ := resolveChannels_some hic
    rw [hl, clampOverride_eq]
    refine ⟨rfl, ?_, ?_⟩ <;> split <;> omega
  · rw [hd] at hoc
    obtain ⟨h0, hl⟩ := resolveChannels_some hoc
    rw [hl, clampOverride_eq]
    refine ⟨rfl, ?_, ?_⟩ <;> split <;> omega
  · rw [hd] at hic
    exact resolveChannels_none hic
  · rw [hd] at hoc
    exact resolveChannels_none hoc

/-- Witness of `negotiate_channels`: an output device with two channels, one asked
for. -/
theorem negotiate_channels_witness :
    negotiate { outputChannels := 1 } none (some (outputOnlyDevice 2 (5 * Millisecond) 48000)) =
      .ok { inputChannels := 0, outputChannels := 1, inputLatency := 0,
            outputLatency := 5 * Millisecond, sampleRate := F64.ofInt 48000,
            bufferSamples := 240 } ∧
    (1 : Int) ≠ 0 ∧ (1 : Int) ≤ (outputOnlyDevice 2 (5 * Millisecond) 48000).MaxOutputChannels :=
  ⟨rfl, ((negotiate_channels { outputChannels := 1 } none
    (some (outputOnlyDevice 2 (5 * Millisecond) 48000))
    { inputChannels := 0, outputChannels := 1, inputLatency := 0,
      outputLatency := 5 * Millisecond, sampleRate := F64.ofInt 48000,
      bufferSamples := 240 } (by rfl)).2.1
      (outputOnlyDevice 2 (5 * Millisecond) 48000) rfl).2⟩

/-! ## C7: devices without capability -/

theorem negotiate_error (options : streamOptions) (inputDevice outputDevice : Option DeviceInfo)
    (h : (∃ d, inputDevice = some d ∧ (d.MaxInputChannels = 0 ∨ d.DefaultLowInputLatency = 0)) ∨
      (∃ d, outputDevice = some d ∧
        (d.MaxOutputChannels = 0 ∨ d.DefaultLowOutputLatency = 0))) :
    ∃ err, negotiate options inputDevice outputDevice = .error err := by
  cases hn : negotiate options inputDevice outputDevice with
  | error err => exact ⟨err, rfl⟩
  | ok c =>
    exfalso
    obtain ⟨hic, hoc, hil, hol, _, _⟩ := negotiate_ok hn
    rcases h with ⟨d, hd, h0⟩ | ⟨d, hd, h0⟩
    · rw [hd] at hic hil
      have h1 := (resolveChannels_some hic).1
      have h2 := (resolveLatency_some hil).1
      rcases h0 with h0 | h0
      · exact h1 h0
      · exact h2 h0
    · rw [hd] at hoc hol
      have h1 := (resolveChannels_some hoc).1
      have h2 := (resolveLatency_some hol).1
      rcases h0 with h0 | h0
      · exact h1 h0
      · exact h2 h0

theorem resolveChannels_ok (device : Option DeviceInfo) (maxChannels : DeviceInfo → Int)
    (override : Int) (msg : String) (h : ∀ d, device = some d → maxChannels d ≠ 0) :
    ∃ ch, resolveChannels device maxChannels override msg = .ok ch := by
  cases device with
  | none => exact ⟨0, rfl⟩
  | some d =>
    have h0 := h d rfl
    exact ⟨clampOverride override (maxChannels d), by simp [resolveChannels, h0]⟩

theorem resolveLatency_ok (device : Option DeviceInfo) (defaultLow : DeviceInfo → Duration)
    (override : Duration) (msg : String) (h : ∀ d, device = some d → defaultLow d ≠ 0) :
    ∃ l, resolveLatency device defaultLow override msg = .ok l := by
  cases device with
  | none => exact ⟨0, rfl⟩
  | some d =>
    have h0 := h d rfl
    exact ⟨clampOverride override (defaultLow d), by simp [resolveLatency, h0]⟩

theorem negotiate_succeeds (options : streamOptions) (inputDevice outputDevice : Option DeviceInfo)
    (hi : ∀ d, inputDevice = some d → d.MaxInputChannels ≠ 0 ∧ d.DefaultLowInputLatency ≠ 0)
    (ho : ∀ d, outputDevice = some d → d.MaxOutputChannels ≠ 0 ∧ d.DefaultLowOutputLatency ≠ 0) :
    ∃ c, negotiate options inputDevice outputDevice = .ok c := by
  obtain ⟨a, ha⟩ := resolveChannels_ok inputDevice DeviceInfo.MaxInputChannels
    options.inputChannels "input device has no input channels" (fun d hd => (hi d hd).1)
  obtain ⟨b, hb⟩ := resolveChannels_ok outputDevice DeviceInfo.MaxOutputChannels
    options.outputChannels "output device has no output channels" (fun d hd => (ho d hd).1)
  obtain ⟨k, hk⟩ := resolveLatency_ok inputDevice DeviceInfo.DefaultLowInputLatency
    options.inputLatency "input device has no input latency" (fun d hd => (hi d hd).2)
  obtain ⟨l, hl⟩ := resolveLatency_ok outputDevice DeviceInfo.DefaultLowOutputLatency
    options.outputLatency "output device has no output latency" (fun d hd => (ho d hd).2)
  unfold negotiate
  rw [ha, hb, hk, hl]
  exact ⟨_, rfl⟩

/-- C7. If the input device `Open` resolves has no input channels or a zero default low
input latency, or the output device it resolves has no output channels or a zero
default low output latency, `Open` returns an error and no stream, and the host is left
as it was: no stream has been opened. If every device resolved has channels and a
nonzero default low latency in its direction, the negotiation succeeds and `Open` goes
on to allocate the buffers and open the stream. -/
theorem open_device_capability {T : Type} [Inhabited T] (opts : List StreamOption)
    (drv : Driver T) :
    (∀ d,
      (resolveInputDevice (applyOptions opts) drv = .ok (some d) ∧
          (d.MaxInputChannels = 0 ∨ d.DefaultLowInputLatency = 0)) ∨
        (resolveOutputDevice (applyOptions opts) drv = .ok (some d) ∧
          (d.MaxOutputChannels = 0 ∨ d.DefaultLowOutputLatency = 0)) →
      ∃ err, Open opts drv = (.ret (.error err), drv)) ∧
    (∀ inputDevice outputDevice,
      resolveInputDevice (applyOptions opts) drv = .ok inputDevice →
      resolveOutputDevice (applyOptions opts) drv = .ok outputDevice →
      (∀ d, inputDevice = some d → d.MaxInputChannels ≠ 0 ∧ d.DefaultLowInputLatency ≠ 0) →
      (∀ d, outputDevice = some d → d.MaxOutputChannels ≠ 0 ∧ d.DefaultLowOutputLatency ≠ 0) →
      ∃ c, negotiate (applyOptions opts) inputDevice outputDevice = .ok c ∧
        Open opts drv = openResolved inputDevice outputDevice c drv) := by
  constructor
  · intro d h
    unfold Open openWith
    cases hi : resolveInputDevice (applyOptions opts) drv with
    | error err => exact ⟨err, rfl⟩
    | ok i =>
      cases ho : resolveOutputDevice (applyOptions opts) drv with
      | error err => exact ⟨err, rfl⟩
      | ok o =>
        have hbad : (∃ d, i = some d ∧ (d.MaxInputChannels = 0 ∨ d.DefaultLowInputLatency = 0)) ∨
            (∃ d, o = some d ∧ (d.MaxOutputChannels = 0 ∨ d.DefaultLowOutputLatency = 0)) := by
          rcases h with ⟨h1, h2⟩ | ⟨h1, h2⟩
          · rw [hi] at h1
            exact Or.inl ⟨d, by cases h1; rfl, h2⟩
          · rw [ho] at h1
            exact Or.inr ⟨d, by cases h1; rfl, h2⟩
        obtain ⟨err, he⟩ := negotiate_error (applyOptions opts) i o hbad
        exact ⟨err, by simp only [he]⟩
  · intro i o hi ho hci hco
    obtain ⟨c, hc⟩ := negotiate_succeeds (applyOptions opts) i o hci hco
    refine ⟨c, hc, ?_⟩
    unfold Open openWith
    simp only [hi, ho, hc]

/-- Witness of `open_device_capability`: an output device without output channels. -/
theorem open_device_capability_witness :
    resolveOutputDevice
        (applyOptions [.WithOutputDevice (some ⟨outputOnlyDevice 0 (5 * Millisecond) 48000⟩)])
        (scriptedHost [] []) = .ok (some (outputOnlyDevice 0 (5 * Millisecond) 48000)) ∧
    (outputOnlyDevice 0 (5 * Millisecond) 48000).MaxOutputChannels = 0 ∧
    ∃ err, Open [.WithOutputDevice (some ⟨outputOnlyDevice 0 (5 * Millisecond) 48000⟩)]
      (scriptedHost [] []) = (.ret (.error err), scriptedHost [] []) :=
  ⟨rfl, rfl, (open_device_capability
    [.WithOutputDevice (some ⟨outputOnlyDevice 0 (5 * Millisecond) 48000⟩)]
    (scriptedHost [] [])).1 (outputOnlyDevice 0 (5 * Millisecond) 48000)
      (Or.inr ⟨rfl, Or.inl rfl⟩)⟩

/-! ## C8: the sample rate -/

/-- C8. When `Open` succeeds, the sample rate is the `sampleRate` option converted to
float64 when the option is nonzero (exactly the option for a magnitude below `2 ^ 53`);
when the option is zero it is the default sample rate of the input device if there is
one, and that of the output device if there is no input device. -/
theorem open_sampleRate {T : Type} [Inhabited T] (opts : List StreamOption)
    (drv drv1 : Driver T) (s : Stream T) (h : Open opts drv = (.ret (.ok s), drv1)) :
    ((applyOptions opts).sampleRate ≠ 0 →
      s.stream.SampleRate = F64.ofInt (applyOptions opts).sampleRate ∧
      ((applyOptions opts).sampleRate.natAbs < 2 ^ 53 →
        s.stream.SampleRate.toRat = ((applyOptions opts).sampleRate : ℚ))) ∧
    ((applyOptions opts).sampleRate = 0 →
      (∀ d, s.stream.Input.Device = some d → s.stream.SampleRate = d.DefaultSampleRate) ∧
      (s.stream.Input.Device = none →
        ∀ d, s.stream.Output.Device = some d → s.stream.SampleRate = d.DefaultSampleRate)) := by
  obtain ⟨c, hc, _, _, hs, _, _, _⟩ := Open_ok h
  obtain ⟨_, _, _, _, hr, _⟩ := negotiate_ok hc
  have e2 : s.stream.SampleRate = c.sampleRate := by rw [hs]; rfl
  rw [e2, hr]
  unfold resolveSampleRate
  constructor
  · intro h0
    have hz : (F64.ofInt (applyOptions opts).sampleRate).isZero = false := by
      cases hb : (F64.ofInt (applyOptions opts).sampleRate).isZero with
      | false => rfl
      | true => exact absurd ((F64.ofInt_isZero _).mp hb) h0
    simp only [hz]
    exact ⟨by simp, fun hlt => by simpa using F64.ofInt_toRat _ hlt⟩
  · intro h0
    have hz : (F64.ofInt (applyOptions opts).sampleRate).isZero = true :=
      (F64.ofInt_isZero _).mpr h0
    simp only [hz, if_true]
    constructor
    · intro d hd
      rw [hd]
    · intro hn d hd
      rw [hn, hd]

/-- Witness of `open_sampleRate`: no device, the option at 48000. -/
theorem open_sampleRate_witness :
    Open [.WithSampleRate 48000] (scriptedHost [] []) =
        (.ret (.ok noDeviceStream), openedHost noDeviceStream.stream) ∧
      noDeviceStream.stream.SampleRate = F64.ofInt 48000 ∧
      noDeviceStream.stream.SampleRate.toRat = 48000 :=
  ⟨rfl, ((open_sampleRate [.WithSampleRate 48000] (scriptedHost [] [])
    (openedHost noDeviceStream.stream) noDeviceStream rfl).1 (by decide)).1,
    by simpa using ((open_sampleRate [.WithSampleRate 48000] (scriptedHost [] [])
      (openedHost noDeviceStream.stream) noDeviceStream rfl).1 (by decide)).2 (by decide)⟩

/-! ## C2: reading at an input overflow -/

/-- C2, as amended. When the host answers the read with an error that is
`portaudio.InputOverflowed`, `Stream.Read` returns `ErrInputOverflowed` and no frame
(nil); the host has filled the input buffer, and the frame pool is as it was: no frame
has been taken from it. -/
theorem read_input_overflowed {T : Type} [Inhabited T] (s : Stream T) (drv : Driver T)
    (pick : Nat) (err : Error) (captured : List T) (rest : List (Option Error × List T))
    (hs : drv.readScript = (some err, captured) :: rest)
    (he : err.Is .InputOverflowed = true) :
    Stream.Read s drv pick =
      (.ret (none, some .ErrInputOverflowed),
        { s with ibuf := goCopy s.ibuf captured },
        { drv with readScript := rest, reads := drv.reads + 1 }) := by
  simp [Stream.Read, driverRead, hs, errorsIs, he]

/-- Witness of `read_input_overflowed`: a two-sample input stream whose host reports
an overflow. -/
theorem read_input_overflowed_witness :
    (scriptedHost [(some .InputOverflowed, [7, 9])] []).readScript =
      (some .InputOverflowed, [7, 9]) :: [] ∧
    Error.Is .InputOverflowed .InputOverflowed = true ∧
    Stream.Read (inputStream 1 (5 * Millisecond) 400 2)
        (scriptedHost [(some .InputOverflowed, [7, 9])] []) 0 =
      (.ret (none, some .ErrInputOverflowed),
        { inputStream 1 (5 * Millisecond) 400 2 with
          ibuf := goCopy (inputStream 1 (5 * Millisecond) 400 2).ibuf [7, 9] },
        { scriptedHost [(some .InputOverflowed, [7, 9])] [] with
          readScript := [], reads := 0 + 1 }) :=
  ⟨rfl, rfl, read_input_overflowed (inputStream 1 (5 * Millisecond) 400 2)
    (scriptedHost [(some .InputOverflowed, [7, 9])] []) 0 .InputOverflowed [7, 9] [] rfl rfl⟩

/-- C2 fails as stated. The stream `Open` gives for a one-channel input device with a
buffer of two frames, read while the host reports an input overflow: the result is
`nil, ErrInputOverflowed`, without a frame, although the host has put the samples 7 and
9 in the input buffer. -/
theorem read_input_overflowed_no_frame :
    Open [.WithInputDevice (some ⟨inputOnlyDevice 1 (5 * Millisecond) 400⟩)]
        (scriptedHost [] []) =
      (.ret (.ok (inputStream 1 (5 * Millisecond) 400 2)),
        openedHost (inputStream 1 (5 * Millisecond) 400 2).stream) ∧
    (Stream.Read (inputStream 1 (5 * Millisecond) 400 2)
        (scriptedHost [(some .InputOverflowed, [7, 9])] []) 0).1 =
      .ret (none, some .ErrInputOverflowed) ∧
    (Stream.Read (inputStream 1 (5 * Millisecond) 400 2)
        (scriptedHost [(some .InputOverflowed, [7, 9])] []) 0).2.1.ibuf = [7, 9] :=
  ⟨rfl, by decide, by decide⟩

/-! ## C3: releasing a frame -/

/-- C3 does not hold of the code. A frame is read from a stream whose pool is empty,
and released: the pool is still empty afterwards, and the next read does not get the
released frame (address 0) back but has a new one allocated (address 1). Had `Release`
called `Put`, the frame would be among the idle items. -/
theorem release_leaves_pool_empty :
    (Stream.Read (inputStream 1 (5 * Millisecond) 400 2)
        (scriptedHost [(none, [7, 9]), (none, [8, 10])] []) 0).1 =
      .ret (some { addr := 0, data := [7, 9] }, none) ∧
    (Stream.Read (inputStream 1 (5 * Millisecond) 400 2)
        (scriptedHost [(none, [7, 9]), (none, [8, 10])] []) 0).2.1.framePool =
      some { size := 2, idle := [], allocated := 1 } ∧
    Frame.Release ({ addr := 0, data := [7, 9] } : Frame Int)
        { size := 2, idle := [], allocated := 1 } =
      { size := 2, idle := [], allocated := 1 } ∧
    (Stream.Read
        { (Stream.Read (inputStream 1 (5 * Millisecond) 400 2)
            (scriptedHost [(none, [7, 9]), (none, [8, 10])] []) 0).2.1 with
          framePool := some (Frame.Release ({ addr := 0, data := [7, 9] } : Frame Int)
            { size := 2, idle := [], allocated := 1 }) }
        (Stream.Read (inputStream 1 (5 * Millisecond) 400 2)
            (scriptedHost [(none, [7, 9]), (none, [8, 10])] []) 0).2.2 0).1 =
      .ret (some { addr := 1, data := [8, 10] }, none) ∧
    (framePool.Put ({ size := 2, idle := [], allocated := 1 } : framePool Int)
        { addr := 0, data := [7, 9] }).idle = [{ addr := 0, data := [7, 9] }] :=
  ⟨by decide, by decide, rfl, by decide, by decide⟩

/-! ## C6: writing a frame of the wrong length -/

/-- C6. A frame whose length is not the length of the output buffer makes
`Stream.Write` return the error "invalid frame size"; the stream, its output buffer
included, and the host, its log of writes included, are as they were. -/
theorem write_invalid_frame_size {T : Type} (s : Stream T) (frame : List T) (drv : Driver T)
    (h : frame.length ≠ s.obuf.length) :
    Stream.Write s frame drv = (some (.new "invalid frame size"), s, drv) := by
  unfold Stream.Write
  rw [if_pos h]

/-- Witness of `write_invalid_frame_size`: three samples for a buffer of 480. -/
theorem write_invalid_frame_size_witness :
    ([1, 2, 3] : List Int).length ≠ (outputStream 1 (5 * Millisecond) 48000 480).obuf.length ∧
    Stream.Write (outputStream 1 (5 * Millisecond) 48000 480) [1, 2, 3] (scriptedHost [] []) =
      (some (.new "invalid frame size"), outputStream 1 (5 * Millisecond) 48000 480,
        scriptedHost [] []) :=
  ⟨by decide, write_invalid_frame_size (outputStream 1 (5 * Millisecond) 48000 480) [1, 2, 3]
    (scriptedHost [] []) (by decide)⟩

/-! ## The frame reader: facts -/

theorem readLoop_spec (src : Source) :
    ∀ need,
      (need ≤ src.available →
        (readLoop src need).1 = src.allBytes.take need ∧
        (readLoop src need).1.length = need ∧
        (readLoop src need).2.2.allBytes = src.allBytes.drop need) ∧
      (src.available < need →
        (readLoop src need).1.length < need ∧ (readLoop src need).2.1 ≠ none) := by
  induction src with
  | nil =>
    intro need
    by_cases h0 : need = 0
    · subst h0
      simp [readLoop, Source.available, Source.allBytes]
    · simp [readLoop, Source.available, Source.allBytes, h0]
  | cons ev rest ih =>
    intro need
    by_cases h0 : need = 0
    · subst h0
      simp [readLoop, Source.available, Source.allBytes]
    · by_cases h1 : need < ev.bytes.length
      · have hle : need ≤ ev.bytes.length := le_of_lt h1
        simp only [readLoop, h0, if_false, h1, if_true, Source.available, Source.allBytes]
        refine ⟨fun _ => ⟨?_, ?_, ?_⟩, fun h => ?_⟩
        · rw [List.take_append_of_le_length hle]
        · rw [List.length_take]
          omega
        · rw [List.drop_append_of_le_length hle]
        · omega
      · cases he : ev.err with
        | some e =>
          simp only [readLoop, h0, if_false, h1, he, Source.available, Source.allBytes,
            Option.isSome_some, if_true, add_zero]
          refine ⟨fun h => ?_, fun h => ⟨h, by simp⟩⟩
          have hl : need = ev.bytes.length := by omega
          subst hl
          simp
        | none =>
          have ih1 := ih (need - ev.bytes.length)
          simp only [readLoop, h0, if_false, h1, he, Source.available, Source.allBytes,
            Option.isSome_none, Bool.false_eq_true]
          refine ⟨fun h => ?_, fun h => ?_⟩
          · obtain ⟨e1, e2, e3⟩ := ih1.1 (by omega)
            refine ⟨?_, ?_, ?_⟩
            · have ht : List.take need ev.bytes = ev.bytes :=
                List.take_of_length_le (by omega)
              rw [e1, List.take_append_eq_append_take, ht]
            · rw [List.length_append, e2]
              omega
            · have hd : List.drop need ev.bytes = [] := List.drop_of_length_le (by omega)
              rw [e3, List.drop_append_eq_append_drop, hd]
              simp
          · obtain ⟨e1, e2⟩ := ih1.2 (by omega)
            refine ⟨?_, e2⟩
            rw [List.length_append]
            omega

theorem ReadFull_spec (src : Source) (size : Nat) :
    (size ≤ src.available →
      ReadFull src size =
        (src.allBytes.take size, none, (readLoop src size).2.2) ∧
      (src.allBytes.take size).length = size ∧
      (readLoop src size).2.2.allBytes = src.allBytes.drop size) ∧
    (src.available < size → (ReadFull src size).2.1 ≠ none) := by
  obtain ⟨h1, h2⟩ := readLoop_spec src size
  constructor
  · intro h
    obtain ⟨e1, e2, e3⟩ := h1 h
    refine ⟨?_, by rw [← e1]; exact e2, e3⟩
    have e2' : size ≤ (readLoop src size).1.length := by omega
    unfold ReadFull
    simp only
    rw [if_pos e2', e1]
  · intro h
    obtain ⟨e1, e2⟩ := h2 h
    unfold ReadFull
    simp only
    rw [if_neg (by omega)]
    split
    · simp
    · exact e2

theorem decodeFrame_length (n : Nat) :
    ∀ bs : List Byte, bs.length = 2 * n → (decodeFrame bs).length = n := by
  induction n with
  | zero =>
    intro bs h
    have : bs = [] := List.length_eq_zero.mp (by omega)
    subst this
    rfl
  | succ n ih =>
    intro bs h
    rcases bs with _ | ⟨lo, _ | ⟨hi, rest⟩⟩
    · simp only [List.length_nil] at h
      omega
    · simp only [List.length_cons, List.length_nil] at h
      omega
    · simp only [List.length_cons] at h
      simp only [decodeFrame, List.length_cons]
      rw [ih rest (by omega)]

theorem decodeFrame_getD (n : Nat) :
    ∀ (bs : List Byte) (i : Nat), bs.length = 2 * n → i < n →
      (decodeFrame bs).getD i 0 = decodeInt16 (bs.getD (2 * i) 0) (bs.getD (2 * i + 1) 0) := by
  induction n with
  | zero => intro bs i _ hi; omega
  | succ n ih =>
    intro bs i h hi
    rcases bs with _ | ⟨lo, _ | ⟨hi2, rest⟩⟩
    · simp only [List.length_nil] at h
      omega
    · simp only [List.length_cons, List.length_nil] at h
      omega
    · simp only [List.length_cons] at h
      cases i with
      | zero =>
        have e1 : (lo :: hi2 :: rest).getD (2 * 0) 0 = lo := List.getD_cons_zero
        have e2 : (lo :: hi2 :: rest).getD (2 * 0 + 1) 0 = hi2 := by
          show (lo :: hi2 :: rest).getD (0 + 1) 0 = hi2
          rw [List.getD_cons_succ, List.getD_cons_zero]
        rw [e1, e2, decodeFrame, List.getD_cons_zero]
      | succ i =>
        have e : 2 * (i + 1) = (2 * i + 1) + 1 := by omega
        have e2 : 2 * (i + 1) + 1 = (2 * i + 1 + 1) + 1 := by omega
        rw [e2, e]
        simp only [decodeFrame, List.getD_cons_succ]
        exact ih rest i (by omega) (by omega)

theorem decodeInt16_range (lo hi : Byte) :
    -32768 ≤ decodeInt16 lo hi ∧ decodeInt16 lo hi < 32768 ∧
      (decodeInt16 lo hi - ((lo.val : Int) + 256 * (hi.val : Int))) % 65536 = 0 := by
  have h1 := lo.isLt
  have h2 := hi.isLt
  unfold decodeInt16
  simp only
  split <;> omega

theorem binaryRead_spec (src : Source) (frame : List Int) :
    (2 * frame.length ≤ src.available →
      binaryRead src frame =
        (none, (readLoop src (2 * frame.length)).2.2,
          decodeFrame (src.allBytes.take (2 * frame.length))) ∧
      (src.allBytes.take (2 * frame.length)).length = 2 * frame.length ∧
      (readLoop src (2 * frame.length)).2.2.allBytes = src.allBytes.drop (2 * frame.length)) ∧
    (src.available < 2 * frame.length →
      ∃ err src1, binaryRead src frame = (some err, src1, frame)) := by
  obtain ⟨h1, h2⟩ := ReadFull_spec src (2 * frame.length)
  constructor
  · intro h
    obtain ⟨e1, e2, e3⟩ := h1 h
    refine ⟨?_, e2, e3⟩
    unfold binaryRead
    rw [e1]
  · intro h
    have hne := h2 h
    unfold binaryRead
    rcases hr : ReadFull src (2 * frame.length) with ⟨bs, err, src1⟩
    rw [hr] at hne
    cases err with
    | none => exact absurd rfl hne
    | some e => exact ⟨e, src1, rfl⟩

/-! ## C9: reading a frame -/

/-- C9. For an empty frame `frameReader.Read` returns nil and leaves the reader as it
is. For a frame of `n > 0` samples it returns nil exactly when the source delivers
`2 * n` more bytes before it ends or reports an error; it has then taken exactly those
`2 * n` bytes from the source, and sample `i` of the frame is the signed 16-bit number
whose low byte is byte `2 * i` and whose high byte is byte `2 * i + 1`; when the source
ends or fails earlier, an error wrapping the cause is returned and the frame is
unchanged. -/
theorem frameReader_Read_spec (fr : frameReader) (frame : List Int) :
    (frame = [] → fr.Read frame = (none, fr, frame)) ∧
    (frame ≠ [] →
      ((fr.Read frame).1 = none ↔ 2 * frame.length ≤ fr.r.available) ∧
      ((fr.Read frame).1 = none →
        (fr.Read frame).2.1.r.allBytes = fr.r.allBytes.drop (2 * frame.length) ∧
        (fr.Read frame).2.2.length = frame.length ∧
        ∀ i, i < frame.length →
          (fr.Read frame).2.2.getD i 0 =
            decodeInt16 (fr.r.allBytes.getD (2 * i) 0) (fr.r.allBytes.getD (2 * i + 1) 0)) ∧
      (fr.r.available < 2 * frame.length →
        (∃ err, (fr.Read frame).1 = some (.wrap "failed to read audio frame" err)) ∧
        (fr.Read frame).2.2 = frame)) ∧
    (∀ lo hi : Byte, -32768 ≤ decodeInt16 lo hi ∧ decodeInt16 lo hi < 32768 ∧
      (decodeInt16 lo hi - ((lo.val : Int) + 256 * (hi.val : Int))) % 65536 = 0) := by
  refine ⟨fun h => ?_, fun h => ?_, decodeInt16_range⟩
  · subst h
    rfl
  · have hlen : frame.length ≠ 0 := fun h0 => h (List.length_eq_zero.mp h0)
    obtain ⟨h1, h2⟩ := binaryRead_spec fr.r frame
    have hok : 2 * frame.length ≤ fr.r.available →
        (fr.Read frame).1 = none ∧
        (fr.Read frame).2.1.r.allBytes = fr.r.allBytes.drop (2 * frame.length) ∧
        (fr.Read frame).2.2 = decodeFrame (fr.r.allBytes.take (2 * frame.length)) := by
      intro hle
      obtain ⟨e1, _, e3⟩ := h1 hle
      unfold frameReader.Read
      simp only [hlen, if_false, e1]
      exact ⟨trivial, e3, trivial⟩
    have hbad : fr.r.available < 2 * frame.length →
        (∃ err, (fr.Read frame).1 = some (.wrap "failed to read audio frame" err)) ∧
        (fr.Read frame).2.2 = frame := by
      intro hlt
      obtain ⟨err, src1, e1⟩ := h2 hlt
      unfold frameReader.Read
      simp only [hlen, if_false, e1]
      exact ⟨⟨err, rfl⟩, trivial⟩
    refine ⟨⟨fun hn => ?_, fun hle => (hok hle).1⟩, fun hn => ?_, hbad⟩
    · by_contra hc
      obtain ⟨⟨err, he⟩, _⟩ := hbad (by omega)
      rw [he] at hn
      cases hn
    · have hle : 2 * frame.length ≤ fr.r.available := by
        by_contra hc
        obtain ⟨⟨err, he⟩, _⟩ := hbad (by omega)
        rw [he] at hn
        cases hn
      obtain ⟨_, e2, e3⟩ := hok hle
      obtain ⟨_, e4, _⟩ := h1 hle
      refine ⟨e2, ?_, fun i hi => ?_⟩
      · rw [e3]
        exact decodeFrame_length frame.length _ e4
      · rw [e3, decodeFrame_getD frame.length _ i e4 hi]
        have g1 : (List.take (2 * frame.length) fr.r.allBytes).getD (2 * i) 0 =
            fr.r.allBytes.getD (2 * i) 0 := by
          simp only [List.getD_eq_getElem?_getD]
          rw [List.getElem?_take_of_lt (by omega)]
        have g2 : (List.take (2 * frame.length) fr.r.allBytes).getD (2 * i + 1) 0 =
            fr.r.allBytes.getD (2 * i + 1) 0 := by
          simp only [List.getD_eq_getElem?_getD]
          rw [List.getElem?_take_of_lt (by omega)]
        rw [g1, g2]

/-- Witness of `frameReader_Read_spec`: four bytes decode to the samples 4660 and -1 and
the fifth byte stays in the source; three bytes are not enough for two samples. -/
theorem frameReader_Read_witness :
    ([0, 0] : List Int) ≠ [] ∧
    (NewFrameReader [{ bytes := [0x34, 0x12], err := none },
        { bytes := [0xff, 0xff, 0x01], err := some .EOF }]).Read [0, 0] =
      (none, { r := [{ bytes := [0x01], err := some .EOF }], buf := some [0, 0, 0, 0] },
        [4660, -1]) ∧
    2 * ([0, 0] : List Int).length ≤ Source.available
      [{ bytes := [0x34, 0x12], err := none }, { bytes := [0xff, 0xff, 0x01], err := some .EOF }] ∧
    ((NewFrameReader [{ bytes := [1, 2, 3], err := none }]).Read [0, 0]).1 =
      some (.wrap "failed to read audio frame" .ErrUnexpectedEOF) :=
  ⟨by decide, by decide,
    ((frameReader_Read_spec
      (NewFrameReader [{ bytes := [0x34, 0x12], err := none },
        { bytes := [0xff, 0xff, 0x01], err := some .EOF }]) [0, 0]).2.1 (by decide)).1.mp
      (by decide),
    by decide⟩

/-! ## C10: output underflow in the streaming loop -/

/-- C10. When the host answers the write of a frame of the right length with
`portaudio.OutputUnderflowed`, `Stream.Write` returns `ErrOutputOverflowed`. In the loop
of `playRadioCommand`, a pass whose write returns `ErrOutputOverflowed` reaches the end
of the body and the loop goes round again; a pass whose write returns any other
non-nil error, or whose frame read returns an error, returns that error to the
caller. -/
theorem loop_output_underflow :
    (∀ (s : Stream Int) (frame : List Int) (drv : Driver Int) (err : Error)
        (rest : List (Option Error)),
      frame.length = s.obuf.length → drv.writeScript = some err :: rest →
      err.Is .OutputUnderflowed = true →
      Stream.Write s frame drv =
        (some .ErrOutputOverflowed, { s with obuf := goCopy s.obuf frame },
          { drv with writeScript := rest, played := drv.played ++ [goCopy s.obuf frame] })) ∧
    (∀ (st : LoopState) (r1 : frameReader) (frame1 : List Int) (err : Option Error)
        (s1 : Stream Int) (d1 : Driver Int),
      st.ctx.head? ≠ some true → st.r.Read st.frame = (none, r1, frame1) →
      st.stream.Write frame1 st.drv = (err, s1, d1) →
      (errorsIs err .ErrOutputOverflowed = true →
        loopBody st =
          .next { ctx := st.ctx.tail, r := r1, frame := frame1, stream := s1, drv := d1 } ∧
        ∀ fuel, runLoop (fuel + 1) st =
          runLoop fuel { ctx := st.ctx.tail, r := r1, frame := frame1, stream := s1, drv := d1 }) ∧
      (∀ e, err = some e → e.Is .ErrOutputOverflowed = false →
        loopBody st =
          .returned e
            { ctx := st.ctx.tail, r := r1, frame := frame1, stream := s1, drv := d1 } ∧
        ∀ fuel, runLoop (fuel + 1) st =
          some (some e,
            { ctx := st.ctx.tail, r := r1, frame := frame1, stream := s1, drv := d1 }))) ∧
    (∀ (st : LoopState) (e : Error) (r1 : frameReader) (frame1 : List Int),
      st.ctx.head? ≠ some true → st.r.Read st.frame = (some e, r1, frame1) →
      loopBody st = .returned e { st with ctx := st.ctx.tail, r := r1, frame := frame1 } ∧
      ∀ fuel, runLoop (fuel + 1) st =
        some (some e, { st with ctx := st.ctx.tail, r := r1, frame := frame1 })) := by
  refine ⟨?_, ?_, ?_⟩
  · intro s frame drv err rest hlen hs he
    unfold Stream.Write
    rw [if_neg (by simpa using hlen)]
    simp [driverWrite, hs, errorsIs, he]
  · intro st r1 frame1 err s1 d1 hctx hr hw
    constructor
    · intro he
      have hb : loopBody st =
          .next { ctx := st.ctx.tail, r := r1, frame := frame1, stream := s1, drv := d1 } := by
        unfold loopBody
        rw [if_neg hctx]
        simp only [hr, hw, he, if_true]
      exact ⟨hb, fun fuel => by simp only [runLoop, hb]⟩
    · intro e he hne
      have hb : loopBody st =
          .returned e
            { ctx := st.ctx.tail, r := r1, frame := frame1, stream := s1, drv := d1 } := by
        unfold loopBody
        rw [if_neg hctx]
        simp only [hr, hw, he, errorsIs, hne]
        simp
      exact ⟨hb, fun fuel => by simp only [runLoop, hb]⟩
  · intro st e r1 frame1 hctx hr
    have hb : loopBody st =
        .returned e { st with ctx := st.ctx.tail, r := r1, frame := frame1 } := by
      unfold loopBody
      rw [if_neg hctx]
      simp only [hr]
    exact ⟨hb, fun fuel => by simp only [runLoop, hb]⟩

/-- Witness of `loop_output_underflow`: the first write meets an output underflow, the
loop goes on to its second pass, finds the context done there and returns nil. -/
theorem loop_output_underflow_witness :
    (underflowLoopState.stream.Write [4660, -1] underflowLoopState.drv).1 =
      some .ErrOutputOverflowed ∧
    (runLoop 2 underflowLoopState).map Prod.fst = some none ∧
    ((runLoop 2 underflowLoopState).map (fun p => p.2.drv.played)) = some [[4660, -1]] :=
  ⟨by
    rw [loop_output_underflow.1 underflowLoopState.stream [4660, -1] underflowLoopState.drv
      .OutputUnderflowed [] (by decide) rfl (by decide)],
   by
    rw [((loop_output_underflow.2.1 underflowLoopState _ _ _ _ _ (by decide) rfl rfl).1
      (by decide)).2 1]
    rfl,
   by
    rw [((loop_output_underflow.2.1 underflowLoopState _ _ _ _ _ (by decide) rfl rfl).1
      (by decide)).2 1]
    rfl⟩

/-! ## The streaming loop: facts -/

theorem wrapInt64_range (x : Int) : minInt64 ≤ wrapInt64 x ∧ wrapInt64 x ≤ maxInt64 := by
  unfold wrapInt64 minInt64 maxInt64
  have h1 : (0 : Int) ≤ (x + 2 ^ 63) % 2 ^ 64 := Int.emod_nonneg _ (by norm_num)
  have h2 : (x + 2 ^ 63) % 2 ^ 64 < 2 ^ 64 := Int.emod_lt_of_pos _ (by norm_num)
  constructor <;> omega

theorem wrapInt64_of_range (x : Int) (h1 : minInt64 ≤ x) (h2 : x ≤ maxInt64) :
    wrapInt64 x = x := by
  unfold minInt64 at h1
  unfold maxInt64 at h2
  unfold wrapInt64
  rw [Int.emod_eq_of_lt (by omega) (by omega)]
  omega

theorem playBufferSamples_range (sampleRate : Int) :
    minInt64 ≤ playBufferSamples sampleRate ∧ playBufferSamples sampleRate ≤ maxInt64 := by
  obtain ⟨h1, h2⟩ := wrapInt64_range (sampleRate * 10)
  unfold playBufferSamples
  generalize wrapInt64 (sampleRate * 10) = a at h1 h2
  unfold minInt64 at *
  unfold maxInt64 at *
  by_cases ha : 0 ≤ a
  · rw [Int.tdiv_eq_ediv ha (by norm_num)]
    omega
  · have hn : a = -(-a) := by omega
    rw [hn, Int.neg_tdiv, Int.tdiv_eq_ediv (by omega) (by norm_num)]
    omega

theorem goCopy_length {T : Type} (dst src : List T) : (goCopy dst src).length = dst.length := by
  unfold goCopy
  rw [List.length_append, List.length_take, List.length_drop]
  omega

theorem frameReader_Read_cases (fr : frameReader) (frame : List Int) :
    ((fr.Read frame).1 = none ∧ (fr.Read frame).2.2.length = frame.length) ∨
    ∃ err, (fr.Read frame).1 = some (.wrap "failed to read audio frame" err) := by
  by_cases hlen : frame.length = 0
  · left
    unfold frameReader.Read
    simp only [hlen, if_true]
    exact ⟨trivial, trivial⟩
  · obtain ⟨h1, h2⟩ := binaryRead_spec fr.r frame
    by_cases hle : 2 * frame.length ≤ fr.r.available
    · left
      obtain ⟨e1, e2, _⟩ := h1 hle
      unfold frameReader.Read
      simp only [hlen, if_false, e1]
      exact ⟨trivial, decodeFrame_length frame.length _ e2⟩
    · right
      obtain ⟨err, src1, e1⟩ := h2 (by omega)
      unfold frameReader.Read
      simp only [hlen, if_false, e1]
      exact ⟨err, rfl⟩

theorem Stream_Write_cases {T : Type} (s : Stream T) (frame : List T) (drv : Driver T)
    (h : frame.length = s.obuf.length) :
    (Stream.Write s frame drv).2.1.obuf.length = s.obuf.length ∧
    (Stream.Write s frame drv).1 ≠ some (.new "invalid frame size") := by
  unfold Stream.Write
  rw [if_neg (by simpa using h)]
  simp only
  split
  · exact ⟨goCopy_length _ _, by simp⟩
  · split
    · exact ⟨goCopy_length _ _, by simp⟩
    · exact ⟨goCopy_length _ _, by simp⟩

/-- One pass of the loop keeps the frame as long as the output buffer, and does not
return the error "invalid frame size". -/
theorem loopBody_frame_length (st : LoopState) (h : st.frame.length = st.stream.obuf.length) :
    (∀ st1, loopBody st = .next st1 → st1.frame.length = st1.stream.obuf.length) ∧
    (∀ e st1, loopBody st = .returned e st1 → e ≠ .new "invalid frame size") := by
  unfold loopBody
  by_cases hctx : st.ctx.head? = some true
  · rw [if_pos hctx]
    exact ⟨fun st1 h1 => (by cases h1), fun e st1 h1 => by cases h1⟩
  · rw [if_neg hctx]
    rcases hr : st.r.Read st.frame with ⟨rerr, r1, frame1⟩
    rcases frameReader_Read_cases st.r st.frame with ⟨e1, e2⟩ | ⟨err, e1⟩
    · rw [hr] at e1 e2
      simp only at e1 e2
      subst e1
      simp only
      have hw := Stream_Write_cases st.stream frame1 st.drv (by rw [e2, h])
      rcases hwr : st.stream.Write frame1 st.drv with ⟨werr, s1, d1⟩
      rw [hwr] at hw
      simp only at hw
      obtain ⟨hw1, hw2⟩ := hw
      simp only
      split
      · refine ⟨fun st1 h1 => ?_, fun e st1 h1 => by cases h1⟩
        cases h1
        simp only
        rw [hw1, e2, h]
      · cases werr with
        | none =>
          refine ⟨fun st1 h1 => ?_, fun e st1 h1 => by cases h1⟩
          cases h1
          simp only
          rw [hw1, e2, h]
        | some e0 =>
          refine ⟨fun st1 h1 => (by cases h1), fun e st1 h1 => ?_⟩
          cases h1
          intro hc
          exact hw2 (by rw [hc])
    · rw [hr] at e1
      simp only at e1
      subst e1
      simp only
      refine ⟨fun st1 h1 => (by cases h1), fun e st1 h1 => ?_⟩
      cases h1
      simp

/-- The loop never returns the error "invalid frame size" when it starts with a frame
as long as the output buffer. -/
theorem runLoop_frame_length (fuel : Nat) :
    ∀ st : LoopState, st.frame.length = st.stream.obuf.length →
      ∀ e st1, runLoop fuel st = some (some e, st1) → e ≠ .new "invalid frame size" := by
  induction fuel with
  | zero =>
    intro st _ e st1 h
    cases h
  | succ fuel ih =>
    intro st hinv e st1 h
    obtain ⟨h1, h2⟩ := loopBody_frame_length st hinv
    unfold runLoop at h
    cases hb : loopBody st with
    | next st2 =>
      rw [hb] at h
      exact ih st2 (h1 st2 hb) e st1 h
    | broke st2 =>
      rw [hb] at h
      cases h
    | returned e2 st2 =>
      rw [hb] at h
      simp only [Option.some.injEq, Prod.mk.injEq] at h
      obtain ⟨he, _⟩ := h
      rw [← he]
      exact h2 e2 st2 hb

/-! ## C12: the frame the loop writes -/

/-- C12, as amended. Let `playRadioCommand` open the stream for a positive sample rate
whose `sampleRate * 10 / 1000` is not zero, on an output device with at least one
output channel, and let `Open` succeed. Then `make([]int16, bufferSamples)` does not
panic, the frame it gives is as long as the output buffer of the stream, and the loop
started with them never returns the error "invalid frame size", however long it
runs. -/
theorem play_frame_length (device : Device) (sampleRate : Int) (drv drv1 : Driver Int)
    (s : Stream Int) (_hpos : 0 < sampleRate) (hb : playBufferSamples sampleRate ≠ 0)
    (hc : 1 ≤ device.info.MaxOutputChannels)
    (hopen : Open (playOpenOptions device sampleRate) drv = (.ret (.ok s), drv1)) :
    ∃ frame, make Int (playBufferSamples sampleRate) = some frame ∧
      frame.length = s.obuf.length ∧
      ∀ ctx p, ∃ st, playLoopStart sampleRate s drv1 ctx p = some st ∧
        st.frame = frame ∧ st.stream = s ∧
        ∀ fuel e st1, runLoop fuel st = some (some e, st1) → e ≠ .new "invalid frame size" := by
  obtain ⟨c, hc1, _, hod, hs, _, _, hob⟩ := Open_ok hopen
  obtain ⟨_, hoc, _, _, _, hbs⟩ := negotiate_ok hc1
  have o1 : (applyOptions (playOpenOptions device sampleRate)).outputDevice = some device := rfl
  have o2 : (applyOptions (playOpenOptions device sampleRate)).outputChannels = 1 := rfl
  have o3 : (applyOptions (playOpenOptions device sampleRate)).bufferSamples =
      playBufferSamples sampleRate := rfl
  have o4 : (applyOptions (playOpenOptions device sampleRate)).defaultOutput = false := rfl
  have hdev : s.stream.Output.Device = some device.info := by
    unfold resolveOutputDevice at hod
    rw [o4, o1] at hod
    simp only [Bool.false_eq_true, if_false, Option.map_some'] at hod
    exact (Except.ok.inj hod).symm
  rw [hdev] at hoc hob
  obtain ⟨_, hch⟩ := resolveChannels_some hoc
  rw [o2, clampOverride_eq, if_pos ⟨by decide, hc⟩] at hch
  have hbuf : c.bufferSamples = playBufferSamples sampleRate := by
    rw [hbs]
    unfold resolveBufferSamples
    rw [o3, if_neg hb]
  obtain ⟨r1, r2⟩ := playBufferSamples_range sampleRate
  rw [hch, hbuf, one_mul, wrapInt64_of_range _ r1 r2] at hob
  simp only [Option.isSome_some, if_true] at hob
  refine ⟨s.obuf, hob, rfl, fun ctx p => ?_⟩
  refine ⟨{ ctx := ctx, r := NewFrameReader p, frame := s.obuf, stream := s, drv := drv1 },
    ?_, rfl, rfl, fun fuel e st1 h => ?_⟩
  · unfold playLoopStart
    rw [hob]
  · exact runLoop_frame_length fuel _ rfl e st1 h

/-! ## C11: a frequency written and read back -/

/-- C11 does not hold of the code. `Frequency.String` prints the remainder with `%d`,
without the zeros in front of it, and `ParseFrequency` discards the fraction of the
float64 product: 1005 Hz is written `1.5K` and read back as 1500; 8104 Hz is written
`8.104K` and read back as 8103; 90.05 MHz, as `ParseFrequency` reads `90.05M`, is
written `90.50000M`, which is what `makeArguments` hands to `rtl_fm` after `-f`, and
read back as 90.5 MHz. -/
theorem frequency_string_not_read_back :
    Frequency.String 1005 = "1.5K" ∧
    ParseFrequency (Frequency.String 1005) = .value 1500 ∧
    Frequency.String 8104 = "8.104K" ∧
    ParseFrequency (Frequency.String 8104) = .value 8103 ∧
    ParseFrequency "90.05M" = .value 90050000 ∧
    Frequency.String 90050000 = "90.50000M" ∧
    ParseFrequency (Frequency.String 90050000) = .value 90500000 ∧
    makeArguments 90050000 {} = ["-M", "wbfm", "-f", "90.50000M", "-s", "400k"] :=
  ⟨by decide, by decide, by decide, by decide, by decide, by decide, by decide, by decide⟩

/-- Below 1 kHz a frequency is written with `strconv.Itoa` and read back with
`strconv.Atoi`: there it is read back as it was. -/
theorem ParseFrequency_String_small :
    ∀ f : Fin 1000, ParseFrequency (Frequency.String (f.val : Int)) = .value (f.val : Int) := by
  decide

/-! ## C12: the frame the loop writes, concretely -/

/-- Witness of `play_frame_length`: 48000 Hz on a one-channel output device gives a
frame and an output buffer of 480 samples. -/
theorem play_frame_length_witness :
    (0 : Int) < 48000 ∧ playBufferSamples 48000 ≠ 0 ∧
    1 ≤ (outputOnlyDevice 1 (5 * Millisecond) 48000).MaxOutputChannels ∧
    Open (playOpenOptions ⟨outputOnlyDevice 1 (5 * Millisecond) 48000⟩ 48000)
        (scriptedHost [] []) =
      (.ret (.ok (outputStream 1 (5 * Millisecond) 48000 480)),
        openedHost (outputStream 1 (5 * Millisecond) 48000 480).stream) ∧
    ∃ frame, make Int (playBufferSamples 48000) = some frame ∧
      frame.length = (outputStream 1 (5 * Millisecond) 48000 480).obuf.length :=
  ⟨by decide, by decide, by decide, rfl,
    match play_frame_length ⟨outputOnlyDevice 1 (5 * Millisecond) 48000⟩ 48000
      (scriptedHost [] []) (openedHost (outputStream 1 (5 * Millisecond) 48000 480).stream)
      (outputStream 1 (5 * Millisecond) 48000 480) (by decide) (by decide) (by decide)
      (by rfl) with
    | ⟨frame, h1, h2, _⟩ => ⟨frame, h1, h2⟩⟩

/-- C12 fails as stated. At a sample rate of 50 Hz `sampleRate * 10 / 1000` is 0, which
`Open` takes for no buffer length given: on a device with a default low latency of
100 ms it resolves 5 frames, the frame of the loop has no sample, and the first pass
of the loop returns "invalid frame size". And for a device that reports a negative
number of output channels `Open` takes that number for the channel count: with
`-(2 ^ 62)` channels and 4 frames the product wraps to 0, the output buffer is empty
and the frame has 4 samples, so that the first write returns "invalid frame size". -/
theorem play_frame_length_mismatch :
    (∃ s drv1,
      Open (playOpenOptions ⟨outputOnlyDevice 1 (100 * Millisecond) 48000⟩ 50)
        (scriptedHost [] []) = (.ret (.ok s), drv1) ∧
      playBufferSamples 50 = 0 ∧ s.stream.FramesPerBuffer = 5 ∧ s.obuf.length = 5 ∧
      ∃ st, playLoopStart 50 s drv1 [] [] = some st ∧ st.frame.length = 0 ∧
        (runLoop 1 st).map Prod.fst = some (some (.new "invalid frame size"))) ∧
    (∃ s drv1,
      Open (playOpenOptions ⟨outputOnlyDevice (-(2 ^ 62)) (5 * Millisecond) 48000⟩ 400)
        (scriptedHost [] []) = (.ret (.ok s), drv1) ∧
      playBufferSamples 400 = 4 ∧ s.stream.Output.Channels = -(2 ^ 62) ∧ s.obuf.length = 0 ∧
      ∃ st, playLoopStart 400 s drv1 [] [{ bytes := [1, 0, 2, 0, 3, 0, 4, 0], err := none }] =
          some st ∧ st.frame.length = 4 ∧
        (runLoop 1 st).map Prod.fst = some (some (.new "invalid frame size"))) :=
  ⟨⟨_, _, rfl, by decide, by decide, by decide, _, rfl, by decide, by decide⟩,
    ⟨_, _, rfl, by decide, by decide, by decide, _, rfl, by decide, by decide⟩⟩

end GoRadio
